import Mathlib

/-!
Verification development for the GenAIL language core: a shallow embedding of
`src/genai_lang/parser.py` and `src/genai_lang/runtime.py`.

Conventions of the embedding:
* Python's dynamic values are the tagged union `Value` below; Python `float`
  is modelled as `ℚ` (every float literal the parser can produce is an exact
  decimal, and the runtime only compares floats against zero, so rationals
  are an exact model of the observable behaviour).
* Python dicts are insertion-ordered association lists with overwrite-in-place
  semantics (`dictInsert` / `lookupDict`).
* Fallible Python code (raising exceptions) is modelled with `Except String`
  or, for statement handlers, by returning the state at the moment of the
  raise together with `Option String` (the error message), mirroring the fact
  that mutations performed before a raise persist.
* Provider invocations are recorded in a ghost `calls` trace on the runtime
  state so that theorems can speak about which provider operation was used.
-/

namespace GenAIL

/-- Dynamic values of the language: Python str / int / float / bool / list /
dict / None, as produced by literal coercion, JSON decoding, message
construction and tool calls.  Python `float` is modelled as `ℚ`. -/
inductive Value where
  | str (s : String)
  | int (n : Int)
  | float (q : ℚ)
  | bool (b : Bool)
  | list (xs : List Value)
  | obj (kvs : List (String × Value))
  | none
deriving Repr

/-- Python `isinstance(v, list)`. -/
def Value.isList : Value → Bool
  | .list _ => true
  | _ => false

/-- Python truthiness (`bool(v)`) for the modelled value shapes. -/
def pyTruthy : Value → Bool
  | .str s => s ≠ ""
  | .int n => n ≠ 0
  | .float q => q ≠ 0
  | .bool b => b
  | .list xs => !xs.isEmpty
  | .obj kvs => !kvs.isEmpty
  | .none => false

/-- Python `v == lit` where `lit` is a string literal: only equal-valued
strings compare equal; values of other types are never `==` a `str`. -/
def valueEqStr (v : Value) (lit : String) : Bool :=
  match v with
  | .str s => s = lit
  | _ => false

/-- Python `type(v).__name__` for the modelled shapes, used to reproduce
`AttributeError` / `TypeError` messages. -/
def typeName : Value → String
  | .str _ => "str"
  | .int _ => "int"
  | .float _ => "float"
  | .bool _ => "bool"
  | .list _ => "list"
  | .obj _ => "dict"
  | .none => "NoneType"

/-- Insertion-ordered dict write: overwrite in place if the key exists,
append otherwise (Python `d[k] = v`). -/
def dictInsert (kvs : List (String × Value)) (k : String) (v : Value) :
    List (String × Value) :=
  match kvs with
  | [] => [(k, v)]
  | (k', v') :: rest =>
      if k' = k then (k, v) :: rest else (k', v') :: dictInsert rest k v

/-- Dict lookup (`d.get(k)` / `k in d`); keys are unique by construction. -/
def lookupDict (kvs : List (String × Value)) (k : String) : Option Value :=
  match kvs with
  | [] => Option.none
  | (k', v') :: rest => if k' = k then some v' else lookupDict rest k

/-- Characters stripped by Python `str.strip()` and matched by the regex
class `\s` (ASCII portion, which is all the scripts can contain). -/
def wsChar (c : Char) : Bool :=
  c = ' ' ∨ c = '\t' ∨ c = '\n' ∨ c = '\r' ∨ c = '\x0b' ∨ c = '\x0c'

/-- Python `str.strip()`. -/
def pvStrip (cs : List Char) : List Char :=
  ((cs.dropWhile wsChar).reverse.dropWhile wsChar).reverse

/-- ASCII decimal digit (regex `\d` on the ASCII scripts in scope). -/
def isDigitChar (c : Char) : Bool := '0' ≤ c ∧ c ≤ '9'

/-- Numeric value of a digit string. -/
def digitsToNat (ds : List Char) : Nat :=
  ds.foldl (fun n c => n * 10 + (c.toNat - '0'.toNat)) 0

/-- Does the token fully match the integer pattern `-?\d+`? -/
def isIntToken (cs : List Char) : Bool :=
  match cs with
  | '-' :: ds => !ds.isEmpty && ds.all isDigitChar
  | ds => !ds.isEmpty && ds.all isDigitChar

/-- Python `int(raw)` for a token matching `-?\d+`. -/
def tokenToInt (cs : List Char) : Int :=
  match cs with
  | '-' :: ds => -(digitsToNat ds : Int)
  | ds => (digitsToNat ds : Int)

/-- Does the token fully match the decimal pattern `-?\d+\.\d+`? -/
def isFloatToken (cs : List Char) : Bool :=
  let body := match cs with
    | '-' :: t => t
    | t => t
  let intPart := body.takeWhile isDigitChar
  let rest := body.dropWhile isDigitChar
  !intPart.isEmpty &&
    match rest with
    | '.' :: fr => !fr.isEmpty && fr.all isDigitChar
    | _ => false

/-- Python `float(raw)` for a token matching `-?\d+\.\d+` (exact, as `ℚ`). -/
def tokenToRat (cs : List Char) : ℚ :=
  let (neg, body) := match cs with
    | '-' :: t => (true, t)
    | t => (false, t)
  let intPart := body.takeWhile isDigitChar
  let rest := body.dropWhile isDigitChar
  let frac := match rest with
    | '.' :: fr => fr
    | _ => []
  let mag : ℚ :=
    mkRat (digitsToNat intPart * 10 ^ frac.length + digitsToNat frac : ℕ)
      (10 ^ frac.length)
  if neg then -mag else mag

/-- Python `repr(s)` for strings: single quotes preferred, double quotes when
the text contains a single quote but no double quote; common escapes. -/
def strRepr (s : String) : String :=
  let q : Char :=
    if s.data.contains '\'' && !s.data.contains '"' then '"' else '\''
  let body := s.data.foldr (fun c acc =>
    if c = '\\' then '\\' :: '\\' :: acc
    else if c = q then '\\' :: q :: acc
    else if c = '\n' then '\\' :: 'n' :: acc
    else if c = '\t' then '\\' :: 't' :: acc
    else if c = '\r' then '\\' :: 'r' :: acc
    else c :: acc) []
  ⟨q :: body ++ [q]⟩

/-- Python `str(f)` for a float that is an exact decimal (the only floats the
system ever produces are parsed decimal literals): render with the shortest
decimal expansion, falling back to `num/den` for non-decimal rationals. -/
def floatStr (q : ℚ) : String :=
  let sign := if q < 0 then "-" else ""
  let n := q.num.natAbs
  let d := q.den
  if d = 1 then sign ++ toString n ++ ".0"
  else
    match (List.range 40).find? (fun k => n * 10 ^ k % d = 0) with
    | some k =>
        let digits := toString (n * 10 ^ k / d)
        let digits :=
          if digits.length ≤ k then
            String.mk (List.replicate (k + 1 - digits.length) '0') ++ digits
          else digits
        let ip := digits.take (digits.length - k)
        let fp := digits.drop (digits.length - k)
        sign ++ ip ++ "." ++ fp
    | Option.none => sign ++ toString n ++ "/" ++ toString d

mutual

/-- Python `repr(v)` for the modelled value shapes (used inside list / dict
renderings and by `str` on containers). -/
def pyRepr : Value → String
  | .str s => strRepr s
  | .int n => toString n
  | .float q => floatStr q
  | .bool b => if b then "True" else "False"
  | .none => "None"
  | .list xs => "[" ++ String.intercalate ", " (pyReprList xs) ++ "]"
  | .obj kvs => "\x7b" ++ String.intercalate ", " (pyReprKVs kvs) ++ "\x7d"

/-- `repr` of each element of a list. -/
def pyReprList : List Value → List String
  | [] => []
  | v :: vs => pyRepr v :: pyReprList vs

/-- `repr` of each `key: value` entry of a dict. -/
def pyReprKVs : List (String × Value) → List String
  | [] => []
  | (k, v) :: kvs => (strRepr k ++ ": " ++ pyRepr v) :: pyReprKVs kvs

end

/-- Python `str(v)`: the text itself for strings, `repr`-style rendering for
every other shape (which matches `str` for the shapes in scope). -/
def pyStr : Value → String
  | .str s => s
  | v => pyRepr v

/-! JSON decoding, modelling `json.loads` (strict mode): used by the `set`
literal coercion and by the structured-output path of `generate`. -/

/-- JSON whitespace. -/
def jsonWS (c : Char) : Bool :=
  c = ' ' ∨ c = '\t' ∨ c = '\n' ∨ c = '\r'

/-- Hex digit value, for `\uXXXX` escapes. -/
def hexVal (c : Char) : Option Nat :=
  if '0' ≤ c ∧ c ≤ '9' then some (c.toNat - '0'.toNat)
  else if 'a' ≤ c ∧ c ≤ 'f' then some (c.toNat - 'a'.toNat + 10)
  else if 'A' ≤ c ∧ c ≤ 'F' then some (c.toNat - 'A'.toNat + 10)
  else Option.none

/-- Body of a JSON string after the opening quote: returns the decoded
characters and the input after the closing quote.  Strict mode: raw control
characters are invalid. -/
def jsonStrAux : List Char → Option (List Char × List Char)
  | [] => Option.none
  | '"' :: rest => some ([], rest)
  | '\\' :: e :: rest =>
      match e with
      | '"' => (jsonStrAux rest).map (fun (a, r) => ('"' :: a, r))
      | '\\' => (jsonStrAux rest).map (fun (a, r) => ('\\' :: a, r))
      | '/' => (jsonStrAux rest).map (fun (a, r) => ('/' :: a, r))
      | 'b' => (jsonStrAux rest).map (fun (a, r) => ('\x08' :: a, r))
      | 'f' => (jsonStrAux rest).map (fun (a, r) => ('\x0c' :: a, r))
      | 'n' => (jsonStrAux rest).map (fun (a, r) => ('\n' :: a, r))
      | 'r' => (jsonStrAux rest).map (fun (a, r) => ('\r' :: a, r))
      | 't' => (jsonStrAux rest).map (fun (a, r) => ('\t' :: a, r))
      | 'u' =>
          match rest with
          | h1 :: h2 :: h3 :: h4 :: rest' =>
              match hexVal h1, hexVal h2, hexVal h3, hexVal h4 with
              | some a, some b, some c, some d =>
                  let n := ((a * 16 + b) * 16 + c) * 16 + d
                  (jsonStrAux rest').map (fun (x, r) => (Char.ofNat n :: x, r))
              | _, _, _, _ => Option.none
          | _ => Option.none
      | _ => Option.none
  | c :: rest =>
      if c.toNat < 32 then Option.none
      else (jsonStrAux rest).map (fun (a, r) => (c :: a, r))

/-- A JSON number starting at the input head: `-?(0|[1-9]\d*)(\.\d+)?
((e|E)(+|-)?\d+)?`, yielding `Value.int` when there is no fraction or
exponent and `Value.float` otherwise (as `json.loads` does). -/
def jsonNum (cs : List Char) : Option (Value × List Char) :=
  let (neg, cs₁) := match cs with
    | '-' :: t => (true, t)
    | t => (false, t)
  let ip := cs₁.takeWhile isDigitChar
  let cs₂ := cs₁.dropWhile isDigitChar
  if ip.isEmpty then Option.none
  else if 1 < ip.length ∧ ip.head? = some '0' then Option.none
  else
    let (frac, cs₃) := match cs₂ with
      | '.' :: t => (t.takeWhile isDigitChar, t.dropWhile isDigitChar)
      | t => ([], t)
    if cs₂.head? = some '.' ∧ frac.isEmpty then Option.none
    else
      let expPart : Option (Bool × List Char × List Char) := match cs₃ with
        | 'e' :: t | 'E' :: t =>
            let (eneg, t') := match t with
              | '+' :: u => (false, u)
              | '-' :: u => (true, u)
              | u => (false, u)
            some (eneg, t'.takeWhile isDigitChar, t'.dropWhile isDigitChar)
        | _ => Option.none
      match expPart with
      | some (_, eds, _) =>
          if eds.isEmpty then Option.none
          else
            let (eneg, eds, rest) := expPart.get!
            let mn : ℕ := digitsToNat ip * 10 ^ frac.length + digitsToNat frac
            let mag : ℚ :=
              if eneg then
                mkRat mn (10 ^ frac.length * 10 ^ digitsToNat eds)
              else mkRat (mn * 10 ^ digitsToNat eds) (10 ^ frac.length)
            some (.float (if neg then -mag else mag), rest)
      | Option.none =>
          if frac.isEmpty then
            let n : Int := (digitsToNat ip : Int)
            some (.int (if neg then -n else n), cs₃)
          else
            let mag : ℚ :=
              mkRat (digitsToNat ip * 10 ^ frac.length + digitsToNat frac : ℕ)
                (10 ^ frac.length)
            some (.float (if neg then -mag else mag), cs₃)

mutual

/-- One JSON value at the input head (fuel-indexed recursion; the fuel is
always ample at call sites). -/
def jsonVal : Nat → List Char → Option (Value × List Char)
  | 0, _ => Option.none
  | fuel + 1, cs =>
      let cs := cs.dropWhile jsonWS
      match cs with
      | 'n' :: 'u' :: 'l' :: 'l' :: rest => some (.none, rest)
      | 't' :: 'r' :: 'u' :: 'e' :: rest => some (.bool true, rest)
      | 'f' :: 'a' :: 'l' :: 's' :: 'e' :: rest => some (.bool false, rest)
      | '"' :: rest =>
          (jsonStrAux rest).map (fun (a, r) => (.str ⟨a⟩, r))
      | '[' :: rest =>
          let rest' := rest.dropWhile jsonWS
          match rest' with
          | ']' :: r => some (.list [], r)
          | _ => jsonArrItems fuel rest' []
      | '\x7b' :: rest =>
          let rest' := rest.dropWhile jsonWS
          match rest' with
          | '\x7d' :: r => some (.obj [], r)
          | _ => jsonObjItems fuel rest' []
      | _ => jsonNum cs

/-- Comma-separated array items up to the closing bracket. -/
def jsonArrItems : Nat → List Char → List Value → Option (Value × List Char)
  | 0, _, _ => Option.none
  | fuel + 1, cs, acc =>
      match jsonVal fuel cs with
      | Option.none => Option.none
      | some (v, rest) =>
          let rest := rest.dropWhile jsonWS
          match rest with
          | ']' :: r => some (.list (acc ++ [v]), r)
          | ',' :: r => jsonArrItems fuel r (acc ++ [v])
          | _ => Option.none

/-- Comma-separated `"key": value` object entries up to the closing brace;
duplicate keys overwrite (Python dict semantics). -/
def jsonObjItems : Nat → List Char → List (String × Value) →
    Option (Value × List Char)
  | 0, _, _ => Option.none
  | fuel + 1, cs, acc =>
      let cs := cs.dropWhile jsonWS
      match cs with
      | '"' :: rest =>
          match jsonStrAux rest with
          | Option.none => Option.none
          | some (k, rest') =>
              let rest' := rest'.dropWhile jsonWS
              match rest' with
              | ':' :: r =>
                  match jsonVal fuel r with
                  | Option.none => Option.none
                  | some (v, r') =>
                      let acc := dictInsert acc ⟨k⟩ v
                      let r' := r'.dropWhile jsonWS
                      match r' with
                      | '\x7d' :: r'' => some (.obj acc, r'')
                      | ',' :: r'' => jsonObjItems fuel r'' acc
                      | _ => Option.none
              | _ => Option.none
      | _ => Option.none

end

/-- `json.loads(s)`: decode one JSON document, requiring only whitespace to
remain afterwards; `Option.none` models `json.JSONDecodeError`. -/
def jsonLoads (s : String) : Option Value :=
  match jsonVal (2 * s.length + 4) s.data with
  | some (v, rest) =>
      if (rest.dropWhile jsonWS).isEmpty then some v else Option.none
  | Option.none => Option.none

/-! Literal coercion: `parser._parse_value`. -/

/-- Tail of the coercion chain after the quoted and JSON checks:
case-insensitive booleans, integer pattern, decimal pattern, plain string. -/
def parseValueRest (r : List Char) : Value :=
  if r.map Char.toLower = "true".data then .bool true
  else if r.map Char.toLower = "false".data then .bool false
  else if isIntToken r then .int (tokenToInt r)
  else if isFloatToken r then .float (tokenToRat r)
  else .str ⟨r⟩

/-- `_parse_value(raw, allow_json=...)`: strip, quoted-string check, optional
JSON attempt (decode failure falls through), then `parseValueRest`. -/
def parseValueCore (allowJson : Bool) (raw : List Char) : Value :=
  let r := pvStrip raw
  if r.head? = some '"' ∧ r.getLast? = some '"' then
    .str ⟨(r.drop 1).dropLast⟩
  else if allowJson ∧
      ((r.head? = some '\x7b' ∧ r.getLast? = some '\x7d') ∨
        (r.head? = some '[' ∧ r.getLast? = some ']')) then
    match jsonLoads ⟨r⟩ with
    | some v => v
    | Option.none => parseValueRest r
  else parseValueRest r

/-- String-level wrapper for `_parse_value`. -/
def parse_value (allowJson : Bool) (raw : String) : Value :=
  parseValueCore allowJson raw.data

/-! Regex helpers shared by the statement recognizers. -/

/-- First character of an identifier: `[a-zA-Z_]`. -/
def isIdentStart (c : Char) : Bool := c.isAlpha ∨ c = '_'

/-- Identifier continuation character: `\w` (ASCII). -/
def isIdentChar (c : Char) : Bool := c.isAlphanum ∨ c = '_'

/-- Greedily read an identifier `[a-zA-Z_]\w*` from the head of the input. -/
def takeIdent (cs : List Char) : Option (List Char × List Char) :=
  match cs with
  | c :: rest =>
      if isIdentStart c then
        some (c :: rest.takeWhile isIdentChar, rest.dropWhile isIdentChar)
      else Option.none
  | [] => Option.none

/-- `ASSIGN_RE`: `^([a-zA-Z_]\w*)\s*=\s*(.+)$`, returning the name and the
value text (the regex's second group). -/
def matchAssign (cs : List Char) : Option (String × List Char) :=
  match takeIdent cs with
  | Option.none => Option.none
  | some (nm, rest) =>
      match rest.dropWhile wsChar with
      | '=' :: r2 =>
          let v := r2.dropWhile wsChar
          if v.isEmpty then Option.none else some (⟨nm⟩, v)
      | _ => Option.none

/-! Shell-like tokenization: `shlex.split` in its default POSIX mode, used by
the `call` and `generate` argument parsers. -/

/-- Whitespace characters recognised by `shlex`. -/
def shWS (c : Char) : Bool := c = ' ' ∨ c = '\t' ∨ c = '\r' ∨ c = '\n'

/-- Consume a single-quoted section (everything literal up to `'`). -/
def shSingle : List Char → Option (List Char × List Char)
  | [] => Option.none
  | '\'' :: rest => some ([], rest)
  | c :: rest => (shSingle rest).map (fun (a, r) => (c :: a, r))

/-- Consume a double-quoted section; inside it a backslash escapes only `\`
and `"`, and is otherwise kept literally. -/
def shDouble : List Char → Option (List Char × List Char)
  | [] => Option.none
  | '"' :: rest => some ([], rest)
  | '\\' :: c :: rest =>
      if c = '"' ∨ c = '\\' then
        (shDouble rest).map (fun (a, r) => (c :: a, r))
      else
        (shDouble rest).map (fun (a, r) => ('\\' :: c :: a, r))
  | ['\\'] => Option.none
  | c :: rest => (shDouble rest).map (fun (a, r) => (c :: a, r))

/-- Worker for `shlexSplit`; `cur`/`hasTok` hold the token being built (an
empty quoted section still yields a token), fuel is ample at call sites. -/
def shlexAux : Nat → List Char → List Char → Bool → List String →
    Except String (List String)
  | 0, _, _, _, _ => .error "shlex: out of fuel"
  | _ + 1, [], cur, hasTok, acc =>
      .ok (if hasTok then acc ++ [⟨cur⟩] else acc)
  | fuel + 1, c :: rest, cur, hasTok, acc =>
      if shWS c then
        if hasTok then shlexAux fuel rest [] false (acc ++ [⟨cur⟩])
        else shlexAux fuel rest [] false acc
      else if c = '\'' then
        match shSingle rest with
        | Option.none => .error "No closing quotation"
        | some (s, r) => shlexAux fuel r (cur ++ s) true acc
      else if c = '"' then
        match shDouble rest with
        | Option.none => .error "No closing quotation"
        | some (s, r) => shlexAux fuel r (cur ++ s) true acc
      else if c = '\\' then
        match rest with
        | [] => .error "No escaped character"
        | c2 :: r2 => shlexAux fuel r2 (cur ++ [c2]) true acc
      else shlexAux fuel rest (cur ++ [c]) true acc

/-- `shlex.split(raw)` (POSIX rules, whitespace splitting). -/
def shlexSplit (raw : String) : Except String (List String) :=
  shlexAux (raw.length + 1) raw.data [] false []

/-! Argument parsers: `parser._parse_call_args` and
`parser._parse_generate_args`. -/

/-- Loop body of `_parse_call_args` over the shlex tokens: each token must
match `ASSIGN_RE`; values go through `_parse_value` with JSON disabled. -/
def callArgsLoop : List String → List (String × Value) →
    Except String (List (String × Value))
  | [], acc => .ok acc
  | tok :: rest, acc =>
      match matchAssign tok.data with
      | Option.none => .error ("Invalid call argument: " ++ tok)
      | some (nm, v) =>
          callArgsLoop rest (dictInsert acc nm (parseValueCore false v))

/-- `_parse_call_args(raw)`. -/
def parse_call_args (raw : String) : Except String (List (String × Value)) :=
  match shlexSplit raw with
  | .error e => .error e
  | .ok toks => callArgsLoop toks []

/-- The `generate` keyword-argument record; fields start at the documented
defaults and each supplied `key=value` token overrides one of them. -/
structure GenArgs where
  temperature : Value
  max_tokens : Value
  format : Value
  schema : Value
deriving Repr

/-- Defaults applied before any supplied keys: `temperature = 0.7`,
`max_tokens = 128`, `format`/`schema` absent (`None`). -/
def genDefaults : GenArgs :=
  { temperature := .float (mkRat 7 10), max_tokens := .int 128,
    format := .none, schema := .none }

/-- Apply one parsed `key=value` pair; a key outside the fixed set is the
`ParseError` naming the unsupported key (`key not in args`). -/
def applyGenArg (a : GenArgs) (key : String) (v : Value) :
    Except String GenArgs :=
  if key = "temperature" then .ok { a with temperature := v }
  else if key = "max_tokens" then .ok { a with max_tokens := v }
  else if key = "format" then .ok { a with format := v }
  else if key = "schema" then .ok { a with schema := v }
  else .error ("Unsupported generate argument: " ++ key)

/-- Loop body of `_parse_generate_args` over the shlex tokens. -/
def genArgsLoop : List String → GenArgs → Except String GenArgs
  | [], a => .ok a
  | tok :: rest, a =>
      match matchAssign tok.data with
      | Option.none => .error ("Invalid generate argument: " ++ tok)
      | some (k, v) =>
          match applyGenArg a k (parseValueCore false v) with
          | .error e => .error e
          | .ok a' => genArgsLoop rest a'

/-- `_parse_generate_args(raw)`: defaults for an empty argument text,
otherwise tokenize and fold the overrides over the defaults. -/
def parse_generate_args (raw : String) : Except String GenArgs :=
  if raw = "" then .ok genDefaults
  else
    match shlexSplit raw with
    | .error e => .error e
    | .ok toks => genArgsLoop toks genDefaults

/-! Statement-line recognizers, modelling the module-level regexes.  Input
lines come from `splitlines`, so they never contain a newline and the
`.`-excludes-newline aspect of the regexes needs no separate check. -/

/-- Match a literal keyword at the head of the input. -/
def dropToken : List Char → List Char → Option (List Char)
  | [], rest => some rest
  | _ :: _, [] => Option.none
  | k :: ks, c :: rest => if c = k then dropToken ks rest else Option.none

/-- `\s+`: at least one whitespace character, consumed maximally. -/
def reqWS (cs : List Char) : Option (List Char) :=
  match cs with
  | c :: rest => if wsChar c then some (rest.dropWhile wsChar) else Option.none
  | [] => Option.none

/-- `MODEL_RE`: `^model\s+"(.+)"$`. -/
def matchModel (line : List Char) : Option String := do
  let r ← dropToken "model".data line
  let r ← reqWS r
  match r with
  | '"' :: rest =>
      if 2 ≤ rest.length ∧ rest.getLast? = some '"' then some ⟨rest.dropLast⟩
      else Option.none
  | _ => Option.none

/-- `TEMPLATE_RE`: `^template\s+([a-zA-Z_]\w*)\s*=\s+"(.*)"$` (note the
mandatory whitespace after `=`). -/
def matchTemplate (line : List Char) : Option (String × String) := do
  let r ← dropToken "template".data line
  let r ← reqWS r
  let (nm, r) ← takeIdent r
  match r.dropWhile wsChar with
  | '=' :: r2 => do
      let r3 ← reqWS r2
      match r3 with
      | '"' :: rest =>
          if 1 ≤ rest.length ∧ rest.getLast? = some '"' then
            some (⟨nm⟩, ⟨rest.dropLast⟩)
          else Option.none
      | _ => Option.none
  | _ => Option.none

/-- `SET_RE`: `^set\s+(.+)$`. -/
def matchSet (line : List Char) : Option (List Char) := do
  let r ← dropToken "set".data line
  let r ← reqWS r
  if r.isEmpty then Option.none else some r

/-- `GENERATE_RE`: `^generate\s+([a-zA-Z_]\w*)\s+from\s+([a-zA-Z_]\w*)(.*)$`,
returning target, prompt-variable name and the raw trailing text. -/
def matchGenerate (line : List Char) :
    Option (String × String × List Char) := do
  let r ← dropToken "generate".data line
  let r ← reqWS r
  let (tgt, r) ← takeIdent r
  let r ← reqWS r
  let r ← dropToken "from".data r
  let r ← reqWS r
  let (p, rest) ← takeIdent r
  some (⟨tgt⟩, ⟨p⟩, rest)

/-- The anchored tail `\s+into\s+([a-zA-Z_]\w*)$` of `CALL_RE`. -/
def tailIntoTarget (cs : List Char) : Option String := do
  let r ← reqWS cs
  let r ← dropToken "into".data r
  let r ← reqWS r
  let (nm, rest) ← takeIdent r
  if rest.isEmpty then some ⟨nm⟩ else Option.none

/-- The lazy `(.+?)` of `CALL_RE`: grow the argument text one character at a
time and take the first split whose remainder matches the anchored tail. -/
def splitCallArgs : List Char → List Char → Option (List Char × String)
  | _, [] => Option.none
  | cur, c :: rest =>
      let cur' := cur ++ [c]
      match tailIntoTarget rest with
      | some tgt => some (cur', tgt)
      | Option.none => splitCallArgs cur' rest

/-- `CALL_RE`: `^call\s+([a-zA-Z_]\w*)\s+(.+?)\s+into\s+([a-zA-Z_]\w*)$`,
returning tool, raw argument text and target. -/
def matchCall (line : List Char) : Option (String × String × String) := do
  let r ← dropToken "call".data line
  let r ← reqWS r
  let (tool, r) ← takeIdent r
  let r ← reqWS r
  let (args, tgt) ← splitCallArgs [] r
  some (⟨tool⟩, ⟨args⟩, tgt)

/-- `MESSAGE_RE`: `^message\s+([a-zA-Z_]\w*)\s+"(.*)"$`. -/
def matchMessage (line : List Char) : Option (String × String) := do
  let r ← dropToken "message".data line
  let r ← reqWS r
  let (role, r) ← takeIdent r
  let r ← reqWS r
  match r with
  | '"' :: rest =>
      if 1 ≤ rest.length ∧ rest.getLast? = some '"' then
        some (⟨role⟩, ⟨rest.dropLast⟩)
      else Option.none
  | _ => Option.none

/-- `PRINT_RE`: `^print\s+(.+)$`. -/
def matchPrint (line : List Char) : Option (List Char) := do
  let r ← dropToken "print".data line
  let r ← reqWS r
  if r.isEmpty then Option.none else some r

/-- `PROMPT_START_RE`: `^prompt\s+"""\s*$`. -/
def matchPromptStart (line : List Char) : Bool :=
  (do
    let r ← dropToken "prompt".data line
    let r ← reqWS r
    let r ← dropToken "\"\"\"".data r
    if r.all wsChar then some () else Option.none).isSome

/-- `PROMPT_END_RE` applied to the stripped line: the stripped text is
exactly `"""`. -/
def promptEndLine (line : List Char) : Bool :=
  pvStrip line = "\"\"\"".data

/-- One parsed instruction, tagged by kind with its structured payload,
mirroring `parser.Statement` and the dict payloads the parser builds. -/
inductive Stmt where
  | model (name : String)
  | set (name : String) (value : Value)
  | template (name : String) (value : String)
  | prompt (value : String)
  | message (role : String) (value : String)
  | generate (target promptVar : String)
      (temperature max_tokens format schema : Value)
  | call (tool : String) (args : List (String × Value)) (target : String)
  | print (value : Value)
deriving Repr

/-- `parser._consume_prompt`: collect raw lines verbatim until a line whose
stripped text is `"""`; returns the collected lines and the input after the
terminator, or `Option.none` at end of input (unterminated block). -/
def consumePromptAux : List String → Option (List String × List String)
  | [] => Option.none
  | l :: rest =>
      if promptEndLine l.data then some ([], rest)
      else (consumePromptAux rest).map (fun (c, r) => (l :: c, r))

/-- One non-blank, non-comment, non-prompt-block line, tried against the
recognizers in source order; `n` is the 1-based line number used in
`ParseError` messages. -/
def parseLine (n : Nat) (l : List Char) : Except String Stmt :=
  match matchModel l with
  | some nm => .ok (.model nm)
  | Option.none =>
  match matchTemplate l with
  | some (nm, v) => .ok (.template nm v)
  | Option.none =>
  match matchSet l with
  | some rest =>
      (match matchAssign rest with
      | Option.none =>
          .error ("Line " ++ toString n ++ ": Invalid set statement: " ++ ⟨l⟩)
      | some (nm, v) => .ok (.set nm (parseValueCore true v)))
  | Option.none =>
  match matchGenerate l with
  | some (tgt, p, rest) =>
      (match parse_generate_args ⟨pvStrip rest⟩ with
      | .error e => .error ("Line " ++ toString n ++ ": " ++ e)
      | .ok a =>
          .ok (.generate tgt p a.temperature a.max_tokens a.format a.schema))
  | Option.none =>
  match matchCall l with
  | some (tool, argsRaw, tgt) =>
      (match parse_call_args argsRaw with
      | .error e => .error ("Line " ++ toString n ++ ": " ++ e)
      | .ok args => .ok (.call tool args tgt))
  | Option.none =>
  match matchMessage l with
  | some (role, v) => .ok (.message role v)
  | Option.none =>
  match matchPrint l with
  | some v => .ok (.print (parseValueCore false v))
  | Option.none =>
      .error ("Line " ++ toString n ++ ": Unrecognized statement: " ++ ⟨l⟩)

/-- The line-scanning loop of `parse_script` (fuel-indexed; the fuel is the
number of lines plus one, which is always ample since every step consumes at
least one line). -/
def parseLinesF : Nat → List String → Nat → Except String (List Stmt)
  | 0, _, _ => .error "parse: out of fuel"
  | _ + 1, [], _ => .ok []
  | fuel + 1, line :: rest, n =>
      let l := pvStrip line.data
      if l.isEmpty then parseLinesF fuel rest (n + 1)
      else if l.head? = some '#' then parseLinesF fuel rest (n + 1)
      else if matchPromptStart l then
        match consumePromptAux rest with
        | Option.none =>
            .error ("Line " ++ toString n ++ ": Unterminated prompt block")
        | some (collected, rest') =>
            match parseLinesF fuel rest' (n + collected.length + 2) with
            | .error e => .error e
            | .ok stmts =>
                .ok (.prompt (String.intercalate "\n" collected) :: stmts)
      else
        match parseLine n l with
        | .error e => .error e
        | .ok st =>
            match parseLinesF fuel rest (n + 1) with
            | .error e => .error e
            | .ok stmts => .ok (st :: stmts)

/-- Parse a list of source lines (the output of `splitlines`). -/
def parseLines (lines : List String) : Except String (List Stmt) :=
  parseLinesF (lines.length + 1) lines 1

/-- `parser.parse_script(source)`; line splitting models `str.splitlines`
for the newline-separated sources in scope. -/
def parse_script (source : String) : Except String (List Stmt) :=
  parseLines (source.splitOn "\n")

/-! Numeric coercions used by `Runtime._handle_generate`: Python `float(v)`
and `int(v)`. -/

/-- Text accepted by Python `float()` (finite decimal and exponent literals;
`inf`/`nan` spellings are outside the behaviour the system exercises). -/
def floatOfChars (cs : List Char) : Option ℚ :=
  let (neg, b) := match cs with
    | '-' :: t => (true, t)
    | '+' :: t => (false, t)
    | t => (false, t)
  let ip := b.takeWhile isDigitChar
  let r1 := b.dropWhile isDigitChar
  let (frac, r2) := match r1 with
    | '.' :: t => (t.takeWhile isDigitChar, t.dropWhile isDigitChar)
    | t => ([], t)
  if ip.isEmpty ∧ frac.isEmpty then Option.none
  else if r1.head? ≠ some '.' ∧ r1 = r2 ∧ ¬r1.isEmpty ∧
      r1.head? ≠ some 'e' ∧ r1.head? ≠ some 'E' then Option.none
  else
    let mn : ℕ := digitsToNat ip * 10 ^ frac.length + digitsToNat frac
    let mant : ℚ := mkRat mn (10 ^ frac.length)
    match r2 with
    | [] => some (if neg then -mant else mant)
    | 'e' :: t | 'E' :: t =>
        let (eneg, t') := match t with
          | '+' :: u => (false, u)
          | '-' :: u => (true, u)
          | u => (false, u)
        if t'.isEmpty ∨ ¬t'.all isDigitChar then Option.none
        else
          let me : ℚ :=
            if eneg then mkRat mn (10 ^ frac.length * 10 ^ digitsToNat t')
            else mkRat (mn * 10 ^ digitsToNat t') (10 ^ frac.length)
          some (if neg then -me else me)
    | _ => Option.none

/-- Python `float(v)` on the modelled value shapes: numbers pass through,
booleans become 0/1, strings are parsed, everything else is a `TypeError`. -/
def pyFloat : Value → Except String ℚ
  | .float q => .ok q
  | .int n => .ok n
  | .bool b => .ok (if b then 1 else 0)
  | .str s =>
      match floatOfChars (pvStrip s.data) with
      | some q => .ok q
      | Option.none =>
          .error ("could not convert string to float: " ++ strRepr s)
  | v =>
      .error ("float() argument must be a string or a real number, not '" ++
        typeName v ++ "'")

/-- Text accepted by Python `int()`: optional sign and decimal digits. -/
def intOfChars (cs : List Char) : Option Int :=
  let (neg, b) := match cs with
    | '-' :: t => (true, t)
    | '+' :: t => (false, t)
    | t => (false, t)
  if b.isEmpty ∨ ¬b.all isDigitChar then Option.none
  else some (if neg then -(digitsToNat b : Int) else (digitsToNat b : Int))

/-- Python `int(v)`: integers pass through, booleans become 0/1, floats are
truncated toward zero, strings are parsed, everything else is a
`TypeError`. -/
def pyInt : Value → Except String Int
  | .int n => .ok n
  | .bool b => .ok (if b then 1 else 0)
  | .float q => .ok (q.num.tdiv (q.den : Int))
  | .str s =>
      match intOfChars (pvStrip s.data) with
      | some n => .ok n
      | Option.none =>
          .error ("invalid literal for int() with base 10: " ++ strRepr s)
  | v => .error ("int() argument must be a string, not '" ++ typeName v ++ "'")

/-! Template substitution: `Runtime._format_string`, i.e. Python
`template.format(**variables)` restricted to the `{identifier}` replacement
fields the language documents (non-identifier fields are modelled as a
generic format error; they fall outside every statement the spec covers). -/

/-- Failure modes of substitution: a `KeyError` for an unbound identifier
(which the runtime rewraps), or any other formatting `ValueError`. -/
inductive FmtErr where
  | unknown (name : String)
  | bad (msg : String)
deriving Repr

/-- Worker for `formatString`: scan the template, expanding `{{`/`}}` escapes
and `{identifier}` fields from the variable environment. -/
def fmtAux (vars : List (String × Value)) : Nat → List Char →
    Except FmtErr (List Char)
  | 0, _ => .error (.bad "format: out of fuel")
  | _ + 1, [] => .ok []
  | fuel + 1, '\x7b' :: '\x7b' :: rest =>
      (fmtAux vars fuel rest).map (fun t => '\x7b' :: t)
  | fuel + 1, '\x7d' :: '\x7d' :: rest =>
      (fmtAux vars fuel rest).map (fun t => '\x7d' :: t)
  | _ + 1, ['\x7b'] => .error (.bad "Single '\x7b' encountered in format string")
  | fuel + 1, '\x7b' :: rest =>
      let fld := rest.takeWhile (fun c => c ≠ '\x7d' ∧ c ≠ '\x7b')
      match rest.dropWhile (fun c => c ≠ '\x7d' ∧ c ≠ '\x7b') with
      | '\x7d' :: rest' =>
          if !fld.isEmpty ∧ isIdentStart (fld.headD ' ') ∧
              fld.all isIdentChar then
            match lookupDict vars ⟨fld⟩ with
            | some v => (fmtAux vars fuel rest').map ((pyStr v).data ++ ·)
            | Option.none => .error (.unknown ⟨fld⟩)
          else .error (.bad "unsupported replacement field")
      | _ => .error (.bad "unexpected '\x7b' in field name")
  | _ + 1, '\x7d' :: _ =>
      .error (.bad "Single '\x7d' encountered in format string")
  | fuel + 1, c :: rest => (fmtAux vars fuel rest).map (fun t => c :: t)

/-- `template.format(**variables)` for a template string. -/
def formatString (vars : List (String × Value)) (t : String) :
    Except FmtErr String :=
  (fmtAux vars (t.length + 1) t.data).map (⟨·⟩)

/-- The error message `_format_string` produces from a `KeyError`; other
format errors propagate with their own message. -/
def fmtErrMsg : FmtErr → String
  | .unknown n => "Unknown variable: " ++ n
  | .bad m => m

/-! Message flattening: `Runtime.format_messages`. -/

/-- `message.get(key, default)` on a dict-shaped message. -/
def getDefault (kvs : List (String × Value)) (k : String) (d : Value) : Value :=
  (lookupDict kvs k).getD d

/-- One `"<role>: <content>"` line; a non-dict element reproduces Python's
`AttributeError` on `.get`. -/
def msgLine : Value → Except String String
  | .obj kvs =>
      .ok (pyStr (getDefault kvs "role" (.str "user")) ++ ": " ++
        pyStr (getDefault kvs "content" (.str "")))
  | v => .error ("'" ++ typeName v ++ "' object has no attribute 'get'")

/-- `Runtime.format_messages(messages)`: the role/content lines joined by
newline. -/
def formatMessages (xs : List Value) : Except String String :=
  (xs.mapM msgLine).map (String.intercalate "\n")

/-! The runtime: environment, provider capability, tool registry and the
per-kind statement handlers. -/

/-- The reserved variable names. -/
def RESERVED_VARIABLES : List String := ["prompt", "messages"]

/-- A record of one provider invocation (ghost trace). -/
inductive PCall where
  | text (model prompt : String) (temperature : ℚ) (maxTokens : Int)
  | msgs (model : String) (messages : List Value) (temperature : ℚ)
      (maxTokens : Int)
deriving Repr

/-- The caller-supplied capabilities: the flat-text provider operation, the
optional chat-oriented operation (`Option.none` models a provider without the
`generate_messages` attribute) and the tool registry. -/
structure Config where
  generate : String → String → ℚ → Int → String
  generate_messages : Option (String → List Value → ℚ → Int → String)
  tools : List (String × (List (String × Value) → Except String Value))

/-- The mutable environment of one `Runtime`: variables, current model,
accumulating output log, plus the ghost provider-call trace. -/
structure RState where
  vars : List (String × Value)
  model : String
  output : List String
  calls : List PCall
deriving Repr

/-- A freshly constructed `Runtime()` environment. -/
def initState : RState :=
  { vars := [], model := "default-model", output := [], calls := [] }

/-- The reserved-name error message. -/
def reservedMsg (name : String) : String :=
  "'" ++ name ++ "' is reserved; use the dedicated statement instead"

/-- `Runtime._handle_model`. -/
def handle_model (s : RState) (name : String) : RState × Option String :=
  ({ s with model := name }, Option.none)

/-- `Runtime._handle_set`: reserved names are rejected unless the name is
`messages` and the value is a list (seeding); otherwise store with
overwrite. -/
def handle_set (s : RState) (name : String) (value : Value) :
    RState × Option String :=
  if name ∈ RESERVED_VARIABLES then
    if name = "messages" ∧ value.isList then
      ({ s with vars := dictInsert s.vars name value }, Option.none)
    else (s, some (reservedMsg name))
  else ({ s with vars := dictInsert s.vars name value }, Option.none)

/-- `Runtime._handle_template`: reserved-name check, then total substitution
before the store. -/
def handle_template (s : RState) (name value : String) :
    RState × Option String :=
  if name ∈ RESERVED_VARIABLES then (s, some (reservedMsg name))
  else
    match formatString s.vars value with
    | .ok r =>
        ({ s with vars := dictInsert s.vars name (.str r) },
          Option.none)
    | .error e => (s, some (fmtErrMsg e))

/-- `Runtime._handle_prompt`. -/
def handle_prompt (s : RState) (value : String) : RState × Option String :=
  match formatString s.vars value with
  | .ok r =>
      ({ s with vars := dictInsert s.vars "prompt" (.str r) },
        Option.none)
  | .error e => (s, some (fmtErrMsg e))

/-- The `{role, content}` message dict built by `_handle_message`. -/
def mkMsg (role content : String) : Value :=
  .obj [("role", .str role), ("content", .str content)]

/-- `Runtime._handle_message`: substitute, then append to `messages`
(creating the list when absent; a non-list binding is a runtime error). -/
def handle_message (s : RState) (role value : String) :
    RState × Option String :=
  match formatString s.vars value with
  | .error e => (s, some (fmtErrMsg e))
  | .ok content =>
      match lookupDict s.vars "messages" with
      | Option.none =>
          ({ s with vars :=
              dictInsert s.vars "messages" (.list [mkMsg role content]) },
            Option.none)
      | some (.list xs) =>
          ({ s with vars :=
              (dictInsert s.vars "messages"
                (.list (xs ++ [mkMsg role content]))) },
            Option.none)
      | some _ => (s, some "messages variable must be a list")

/-- The prompt text resolved from the prompt variable's value: a list is
flattened through `format_messages`, anything else is its `str` form. -/
def genPromptText : Value → Except String String
  | .list xs => formatMessages xs
  | v => .ok (pyStr v)

/-- The schema / format augmentation of the flat prompt text (`schema` wins,
and both checks use Python truthiness / string equality). -/
def augment (ptext : String) (fmtv schv : Value) : String :=
  if pyTruthy schv then
    ptext ++ "\n\nReturn JSON matching this schema:\n" ++ pyStr schv
  else if valueEqStr fmtv "json" then ptext ++ "\n\nReturn valid JSON."
  else ptext

/-- The provider dispatch of `_handle_generate`: the chat operation is used
exactly when the prompt value is a non-empty list (`if messages and ...`)
and the provider exposes it; otherwise the flat operation on the (augmented)
prompt text.  Returns the generated text and the trace record. -/
def genCall (cfg : Config) (model : String) (pv : Value) (ptext : String)
    (t : ℚ) (k : Int) : String × PCall :=
  match pv, cfg.generate_messages with
  | .list (m :: ms), some g =>
      (g model (m :: ms) t k, .msgs model (m :: ms) t k)
  | _, _ => (cfg.generate model ptext t k, .text model ptext t k)

/-- The error message for non-numeric `temperature` / `max_tokens`. -/
def numErrMsg : String :=
  "generate arguments must include numeric temperature and max_tokens"

/-- `Runtime._handle_generate`. -/
def handle_generate (cfg : Config) (s : RState)
    (target pvar : String) (temp mtok fmtv schv : Value) :
    RState × Option String :=
  match lookupDict s.vars pvar with
  | Option.none => (s, some ("Unknown prompt variable: " ++ pvar))
  | some pv =>
    match genPromptText pv with
    | .error e => (s, some e)
    | .ok ptext0 =>
      match pyFloat temp with
      | .error _ => (s, some numErrMsg)
      | .ok t =>
        match pyInt mtok with
        | .error _ => (s, some numErrMsg)
        | .ok k =>
          if t < 0 then (s, some "temperature must be non-negative")
          else if k ≤ 0 then (s, some "max_tokens must be positive")
          else
            let ptext := augment ptext0 fmtv schv
            let gc := genCall cfg s.model pv ptext t k
            let s1 := { s with calls := s.calls ++ [gc.2] }
            if valueEqStr fmtv "json" ∨ pyTruthy schv then
              match jsonLoads gc.1 with
              | some v =>
                  ({ s1 with vars := dictInsert s1.vars target v },
                    Option.none)
              | Option.none => (s1, some "Generated output is not valid JSON")
            else
              ({ s1 with vars :=
                  dictInsert s1.vars target (.str gc.1) },
                Option.none)

/-- `Runtime._handle_call`: unknown tools fail; a tool's own failure
propagates; the result is stored under the target (no reserved check). -/
def handle_call (cfg : Config) (s : RState) (tool : String)
    (args : List (String × Value)) (target : String) : RState × Option String :=
  match cfg.tools.lookup tool with
  | Option.none => (s, some ("Unknown tool: " ++ tool))
  | some f =>
      match f args with
      | .error e => (s, some e)
      | .ok v =>
          ({ s with vars := dictInsert s.vars target v },
            Option.none)

/-- `Runtime._handle_print`: a string value naming a bound variable is
replaced by that variable's value; the string form is appended to the
output log. -/
def handle_print (s : RState) (value : Value) : RState × Option String :=
  let v := match value with
    | .str x =>
        match lookupDict s.vars x with
        | some w => w
        | Option.none => value
    | _ => value
  ({ s with output := s.output ++ [pyStr v] }, Option.none)

/-- Dispatch one statement to its handler (`Runtime.run`'s loop body). -/
def execStmt (cfg : Config) (s : RState) : Stmt → RState × Option String
  | .model name => handle_model s name
  | .set name value => handle_set s name value
  | .template name value => handle_template s name value
  | .prompt value => handle_prompt s value
  | .message role value => handle_message s role value
  | .generate tgt p t k f sc => handle_generate cfg s tgt p t k f sc
  | .call tool args tgt => handle_call cfg s tool args tgt
  | .print value => handle_print s value

/-- Execute a statement sequence, stopping at the first failing statement;
the returned state is the environment at that moment (prior effects are
kept, matching the no-rollback exception semantics). -/
def runStmts (cfg : Config) (s : RState) : List Stmt → RState × Option String
  | [] => (s, Option.none)
  | st :: rest =>
      match execStmt cfg s st with
      | (s', Option.none) => runStmts cfg s' rest
      | (s', some e) => (s', some e)

/-- `Runtime.run(statements)`: on success it returns the environment's own
output list; a failure propagates the error instead. -/
def run (cfg : Config) (s : RState) (stmts : List Stmt) :
    RState × Except String (List String) :=
  match runStmts cfg s stmts with
  | (s', Option.none) => (s', .ok s'.output)
  | (s', some e) => (s', .error e)

/-! Concrete capability configurations used to instantiate theorems. -/

/-- A chat-capable provider returning distinct constant texts on the two
operations, with no tools. -/
def cfgFlat : Config :=
  { generate := fun _ _ _ _ => "FLAT",
    generate_messages := some (fun _ _ _ _ => "CHAT"),
    tools := [] }

/-- A provider returning a fixed text on the flat operation only. -/
def cfgConst (out : String) : Config :=
  { generate := fun _ _ _ _ => out,
    generate_messages := Option.none,
    tools := [] }

/-- The `messages` type invariant: if bound, the variable holds a list. -/
def msgsListInv (s : RState) : Prop :=
  ∀ v, lookupDict s.vars "messages" = some v → v.isList = true

/-- A statement whose `generate` / `call` target (the unchecked write paths)
avoids the reserved names. -/
def safeTargets : Stmt → Bool
  | .generate tgt _ _ _ _ _ => tgt ≠ "prompt" && tgt ≠ "messages"
  | .call _ _ tgt => tgt ≠ "prompt" && tgt ≠ "messages"
  | _ => true

/-! Theorems.  Helper lemmas come first, then one theorem (plus witness or
counterexample) per specification claim. -/

theorem wsChar_quote : wsChar '"' = false := by decide

theorem pvStrip_quoted (cs : List Char) :
    pvStrip ('"' :: (cs ++ ['"'])) = '"' :: (cs ++ ['"']) := by
  unfold pvStrip
  have h1 : ('"' :: (cs ++ ['"'])).dropWhile wsChar = '"' :: (cs ++ ['"']) := by
    rw [List.dropWhile_cons, wsChar_quote]
    simp
  rw [h1]
  have h2 : ('"' :: (cs ++ ['"'])).reverse =
      '"' :: ((cs.reverse) ++ ['"']) := by
    have : ('"' :: (cs ++ ['"'])) = (('"' :: cs) ++ ['"']) := by simp
    rw [this, List.reverse_append]
    simp
  rw [h2, List.dropWhile_cons, wsChar_quote]
  simp only [if_neg, Bool.false_eq_true, not_false_eq_true, ← h2,
    List.reverse_reverse]

theorem getLast?_quoted (cs : List Char) :
    ('"' :: (cs ++ ['"'])).getLast? = some '"' := by
  have : ('"' :: (cs ++ ['"'])) = (('"' :: cs) ++ ['"']) := by simp
  rw [this, List.getLast?_concat]

theorem parseValueCore_quoted (b : Bool) (cs : List Char) :
    parseValueCore b ('"' :: (cs ++ ['"'])) = .str ⟨cs⟩ := by
  unfold parseValueCore
  rw [pvStrip_quoted]
  rw [if_pos]
  · simp
  · exact ⟨rfl, getLast?_quoted cs⟩

theorem toLower_digit (c : Char) (h : isDigitChar c = true) : c.toLower = c := by
  simp [isDigitChar] at h
  obtain ⟨h1, h2⟩ := h
  unfold Char.toLower
  have hn : c.toNat ≤ 57 := by
    have := Char.le_def.mp h2
    simpa [Char.toNat] using this
  simp only []
  rw [if_neg]
  omega

theorem intToken_head (cs : List Char) (h : isIntToken cs = true) :
    ∃ c rest, cs = c :: rest ∧ (c = '-' ∨ isDigitChar c = true) := by
  unfold isIntToken at h
  split at h
  · rename_i ds
    exact ⟨'-', ds, rfl, Or.inl rfl⟩
  · cases cs with
    | nil => simp at h
    | cons c rest =>
        simp at h
        exact ⟨c, rest, rfl, Or.inr h.1⟩

theorem floatToken_head (cs : List Char) (h : isFloatToken cs = true) :
    ∃ c rest, cs = c :: rest ∧ (c = '-' ∨ isDigitChar c = true) := by
  cases cs with
  | nil => simp [isFloatToken] at h
  | cons c rest =>
      by_cases hc : c = '-'
      · exact ⟨c, rest, rfl, Or.inl hc⟩
      · refine ⟨c, rest, rfl, Or.inr ?_⟩
        unfold isFloatToken at h
        have hbody : (match c :: rest with
            | '-' :: t => t
            | t => t) = c :: rest := by
          split
          · rename_i heq
            cases heq
            exact absurd rfl hc
          · rfl
        rw [hbody] at h
        simp only [Bool.and_eq_true] at h
        rcases hd : isDigitChar c
        · rw [List.takeWhile_cons, hd] at h
          simp at h
        · rfl

/-- Heads that can start an integer or decimal token rule out every earlier
branch of the coercion chain. -/
theorem numeric_head_excludes (c : Char) (rest : List Char)
    (hc : c = '-' ∨ isDigitChar c = true) :
    c ≠ '"' ∧ c ≠ '\x7b' ∧ c ≠ '[' ∧
    (c :: rest).map Char.toLower ≠ "true".data ∧
    (c :: rest).map Char.toLower ≠ "false".data := by
  have hlow : c.toLower = c := by
    rcases hc with rfl | hd
    · rfl
    · exact toLower_digit c hd
  have hno : c ≠ '"' ∧ c ≠ '\x7b' ∧ c ≠ '[' ∧ c ≠ 't' ∧ c ≠ 'f' := by
    rcases hc with rfl | hd
    · refine ⟨by decide, by decide, by decide, by decide, by decide⟩
    · refine ⟨?_, ?_, ?_, ?_, ?_⟩ <;>
        (intro hh; rw [hh] at hd; simp [isDigitChar] at hd)
  refine ⟨hno.1, hno.2.1, hno.2.2.1, ?_, ?_⟩
  · intro hmap
    rw [List.map_cons] at hmap
    have : c.toLower = 't' := (List.cons.injEq .. ▸ hmap).1
    rw [hlow] at this
    exact hno.2.2.2.1 this
  · intro hmap
    rw [List.map_cons] at hmap
    have : c.toLower = 'f' := (List.cons.injEq .. ▸ hmap).1
    rw [hlow] at this
    exact hno.2.2.2.2 this

/-- The integer branch: any stripped token matching `-?\\d+` coerces to the
Python int of the token, in both JSON modes. -/
theorem parse_value_int_law (b : Bool) (cs : List Char)
    (hstrip : pvStrip cs = cs) (h : isIntToken cs = true) :
    parseValueCore b cs = .int (tokenToInt cs) := by
  obtain ⟨c, rest, rfl, hc⟩ := intToken_head cs h
  obtain ⟨hq, hbrace, hbrak, htrue, hfalse⟩ := numeric_head_excludes c rest hc
  unfold parseValueCore
  rw [hstrip]
  rw [if_neg (by
    rintro ⟨hh, -⟩
    simp only [List.head?_cons, Option.some.injEq] at hh
    exact hq hh)]
  rw [if_neg (by
    rintro ⟨-, hh | hh⟩
    · simp only [List.head?_cons, Option.some.injEq] at hh
      exact hbrace hh.1
    · simp only [List.head?_cons, Option.some.injEq] at hh
      exact hbrak hh.1)]
  unfold parseValueRest
  rw [if_neg htrue, if_neg hfalse, if_pos h]

/-- The decimal branch: any stripped token matching `-?\\d+\\.\\d+` (which
never matches the integer pattern) coerces to the exact rational of the
token, in both JSON modes. -/
theorem parse_value_float_law (b : Bool) (cs : List Char)
    (hstrip : pvStrip cs = cs) (hint : isIntToken cs = false)
    (h : isFloatToken cs = true) :
    parseValueCore b cs = .float (tokenToRat cs) := by
  obtain ⟨c, rest, rfl, hc⟩ := floatToken_head cs h
  obtain ⟨hq, hbrace, hbrak, htrue, hfalse⟩ := numeric_head_excludes c rest hc
  unfold parseValueCore
  rw [hstrip]
  rw [if_neg (by
    rintro ⟨hh, -⟩
    simp only [List.head?_cons, Option.some.injEq] at hh
    exact hq hh)]
  rw [if_neg (by
    rintro ⟨-, hh | hh⟩
    · simp only [List.head?_cons, Option.some.injEq] at hh
      exact hbrace hh.1
    · simp only [List.head?_cons, Option.some.injEq] at hh
      exact hbrak hh.1)]
  unfold parseValueRest
  rw [if_neg htrue, if_neg hfalse]
  simp only [hint, Bool.false_eq_true, if_false, if_pos h]

/-- The boolean branch: any stripped token whose lowercase form is `true` /
`false` coerces to the boolean, in both JSON modes. -/
theorem parse_value_bool_law (b : Bool) (cs : List Char)
    (hstrip : pvStrip cs = cs) :
    (cs.map Char.toLower = "true".data → parseValueCore b cs = .bool true) ∧
    (cs.map Char.toLower = "false".data → parseValueCore b cs = .bool false) := by
  cases cs with
  | nil => exact ⟨fun h => by simp at h, fun h => by simp at h⟩
  | cons c rest =>
      have main : ∀ (lit : List Char) (c0 : Char), lit.head? = some c0 →
          (c :: rest).map Char.toLower = lit → c.toLower = c0 := by
        intro lit c0 hlit hmap
        rw [List.map_cons] at hmap
        cases lit with
        | nil => simp at hlit
        | cons l0 ls =>
            simp only [List.head?_cons, Option.some.injEq] at hlit
            have := (List.cons.injEq .. ▸ hmap).1
            rw [this, hlit]
      constructor
      · intro hmap
        have hc : c.toLower = 't' := main "true".data 't' rfl hmap
        have hcq : c ≠ '"' := by
          intro hh
          rw [hh] at hc
          exact absurd hc (by decide)
        have hcb : c ≠ '\x7b' := by
          intro hh
          rw [hh] at hc
          exact absurd hc (by decide)
        have hck : c ≠ '[' := by
          intro hh
          rw [hh] at hc
          exact absurd hc (by decide)
        unfold parseValueCore
        rw [hstrip]
        rw [if_neg (by
          rintro ⟨hh, -⟩
          simp only [List.head?_cons, Option.some.injEq] at hh
          exact hcq hh)]
        rw [if_neg (by
          rintro ⟨-, hh | hh⟩
          · simp only [List.head?_cons, Option.some.injEq] at hh
            exact hcb hh.1
          · simp only [List.head?_cons, Option.some.injEq] at hh
            exact hck hh.1)]
        unfold parseValueRest
        rw [if_pos hmap]
      · intro hmap
        have hc : c.toLower = 'f' := main "false".data 'f' rfl hmap
        have hcq : c ≠ '"' := by
          intro hh
          rw [hh] at hc
          exact absurd hc (by decide)
        have hcb : c ≠ '\x7b' := by
          intro hh
          rw [hh] at hc
          exact absurd hc (by decide)
        have hck : c ≠ '[' := by
          intro hh
          rw [hh] at hc
          exact absurd hc (by decide)
        have hnt : (c :: rest).map Char.toLower ≠ "true".data := by
          intro hh
          have := main "true".data 't' rfl hh
          rw [hc] at this
          exact absurd this (by decide)
        unfold parseValueCore
        rw [hstrip]
        rw [if_neg (by
          rintro ⟨hh, -⟩
          simp only [List.head?_cons, Option.some.injEq] at hh
          exact hcq hh)]
        rw [if_neg (by
          rintro ⟨-, hh | hh⟩
          · simp only [List.head?_cons, Option.some.injEq] at hh
            exact hcb hh.1
          · simp only [List.head?_cons, Option.some.injEq] at hh
            exact hck hh.1)]
        unfold parseValueRest
        rw [if_neg hnt, if_pos hmap]
/-- The JSON attempt on the `set` path falls through to a plain string when
the decode fails, and without the `set` path a delimited token is a plain
string outright. -/
theorem parse_value_json_fallthrough_law (cs : List Char)
    (hstrip : pvStrip cs = cs)
    (hshape : (cs.head? = some '\x7b' ∧ cs.getLast? = some '\x7d') ∨
      (cs.head? = some '[' ∧ cs.getLast? = some ']'))
    (hfail : jsonLoads ⟨cs⟩ = Option.none) :
    ∀ b, parseValueCore b cs = .str ⟨cs⟩ := by
  intro b
  obtain ⟨c, rest, rfl⟩ : ∃ c rest, cs = c :: rest := by
    cases cs with
    | nil =>
        rcases hshape with ⟨hh, -⟩ | ⟨hh, -⟩ <;> simp at hh
    | cons c rest => exact ⟨c, rest, rfl⟩
  have hc : c = '\x7b' ∨ c = '[' := by
    rcases hshape with ⟨hh, -⟩ | ⟨hh, -⟩ <;>
      simp only [List.head?_cons, Option.some.injEq] at hh
    · exact Or.inl hh
    · exact Or.inr hh
  have hcq : c ≠ '"' := by
    rcases hc with rfl | rfl <;> decide
  have hlow : c.toLower = c := by
    rcases hc with rfl | rfl <;> rfl
  have hnt : (c :: rest).map Char.toLower ≠ "true".data := by
    intro hh
    rw [List.map_cons] at hh
    have := (List.cons.injEq .. ▸ hh).1
    rw [hlow] at this
    rcases hc with rfl | rfl <;> exact absurd this (by decide)
  have hnf : (c :: rest).map Char.toLower ≠ "false".data := by
    intro hh
    rw [List.map_cons] at hh
    have := (List.cons.injEq .. ▸ hh).1
    rw [hlow] at this
    rcases hc with rfl | rfl <;> exact absurd this (by decide)
  have hni : isIntToken (c :: rest) = false := by
    unfold isIntToken
    split
    · rename_i ds heq
      obtain ⟨rfl, -⟩ := List.cons.injEq .. ▸ heq
      rcases hc with hh | hh <;> exact absurd hh (by decide)
    · rw [List.all_cons]
      have : isDigitChar c = false := by
        rcases hc with rfl | rfl <;> rfl
      rw [this]
      simp
  have hnd : isFloatToken (c :: rest) = false := by
    unfold isFloatToken
    have hbody : (match c :: rest with
        | '-' :: t => t
        | t => t) = c :: rest := by
      split
      · rename_i heq
        obtain ⟨rfl, -⟩ := List.cons.injEq .. ▸ heq
        rcases hc with hh | hh <;> exact absurd hh (by decide)
      · rfl
    rw [hbody]
    dsimp only
    have : isDigitChar c = false := by
      rcases hc with rfl | rfl <;> rfl
    rw [List.takeWhile_cons, this]
    simp
  have hrest : parseValueRest (c :: rest) = .str ⟨c :: rest⟩ := by
    unfold parseValueRest
    rw [if_neg hnt, if_neg hnf]
    simp only [hni, hnd, Bool.false_eq_true, if_false]
  unfold parseValueCore
  rw [hstrip]
  rw [if_neg (by
    rintro ⟨hh, -⟩
    simp only [List.head?_cons, Option.some.injEq] at hh
    exact hcq hh)]
  cases b with
  | false =>
      rw [if_neg (by rintro ⟨hh, -⟩; cases hh)]
      exact hrest
  | true =>
      rw [if_pos ⟨rfl, hshape⟩]
      rw [hfail]
      exact hrest

/-- The catch-all branch: a stripped token that is not quoted, not `{}`/`[]`
delimited, not a case-insensitive boolean and matches neither numeric
pattern is kept as a plain string, in both JSON modes. -/
theorem parse_value_plain_law (b : Bool) (cs : List Char)
    (hstrip : pvStrip cs = cs)
    (hq : ¬(cs.head? = some '"' ∧ cs.getLast? = some '"'))
    (hshape : ¬((cs.head? = some '\x7b' ∧ cs.getLast? = some '\x7d') ∨
      (cs.head? = some '[' ∧ cs.getLast? = some ']')))
    (hnt : cs.map Char.toLower ≠ "true".data)
    (hnf : cs.map Char.toLower ≠ "false".data)
    (hni : isIntToken cs = false) (hnd : isFloatToken cs = false) :
    parseValueCore b cs = .str ⟨cs⟩ := by
  unfold parseValueCore
  rw [hstrip]
  rw [if_neg hq]
  rw [if_neg (by rintro ⟨-, hh⟩; exact hshape hh)]
  unfold parseValueRest
  rw [if_neg hnt, if_neg hnf]
  simp only [hni, hnd, Bool.false_eq_true, if_false]

/-- C4: literal coercion applies to every right-hand-side value token: a
double-quoted token is the raw string with the quotes stripped (for every
token and both JSON modes); case-insensitive bare `true` / `false` are
booleans; `-?digits` is an integer; `-?digits.digits` is a float; a `[]` or
`\x7b\x7d` delimited token is attempted as JSON only on the `set` path
(`call`, `generate` and `print` parse with JSON disabled and keep it a plain
string); in particular the quoted token `"true"` coerces to the string
`true`, never the boolean, in `call` and `generate` argument position as
well as in `set`. -/
theorem c4_literal_coercion :
    (∀ (b : Bool) (s : String), parse_value b ("\"" ++ s ++ "\"") = .str s) ∧
    (∀ b : Bool, parse_value b "true" = .bool true ∧
      parse_value b "TRUE" = .bool true ∧
      parse_value b "False" = .bool false) ∧
    (∀ b : Bool, parse_value b "-42" = .int (-42) ∧
      parse_value b "3.14" = .float (mkRat 157 50)) ∧
    (parseLines ["set x = [1, 2]"] = .ok [.set "x" (.list [.int 1, .int 2])] ∧
      parseLines ["call t x=[1,2] into r"] =
        .ok [.call "t" [("x", .str "[1,2]")] "r"] ∧
      parseLines ["generate r from p schema=[1]"] =
        .ok [.generate "r" "p" (.float (mkRat 7 10)) (.int 128) .none
          (.str "[1]")] ∧
      parseLines ["print [1, 2]"] = .ok [.print (.str "[1, 2]")]) ∧
    (callArgsLoop ["flag=\"true\""] [] = .ok [("flag", .str "true")] ∧
      genArgsLoop ["schema=\"true\""] genDefaults =
        .ok { genDefaults with schema := .str "true" } ∧
      parseLines ["set x = \"true\""] = .ok [.set "x" (.str "true")]) ∧
    (∀ (b : Bool) (cs : List Char), pvStrip cs = cs → isIntToken cs = true →
      parseValueCore b cs = .int (tokenToInt cs)) ∧
    (∀ (b : Bool) (cs : List Char), pvStrip cs = cs →
      isIntToken cs = false → isFloatToken cs = true →
      parseValueCore b cs = .float (tokenToRat cs)) ∧
    (∀ (b : Bool) (cs : List Char), pvStrip cs = cs →
      (cs.map Char.toLower = "true".data →
        parseValueCore b cs = .bool true) ∧
      (cs.map Char.toLower = "false".data →
        parseValueCore b cs = .bool false)) ∧
    (∀ cs : List Char, pvStrip cs = cs →
      ((cs.head? = some '\x7b' ∧ cs.getLast? = some '\x7d') ∨
        (cs.head? = some '[' ∧ cs.getLast? = some ']')) →
      jsonLoads ⟨cs⟩ = Option.none →
      ∀ b, parseValueCore b cs = .str ⟨cs⟩) ∧
    (∀ (b : Bool) (cs : List Char), pvStrip cs = cs →
      ¬(cs.head? = some '"' ∧ cs.getLast? = some '"') →
      ¬((cs.head? = some '\x7b' ∧ cs.getLast? = some '\x7d') ∨
        (cs.head? = some '[' ∧ cs.getLast? = some ']')) →
      cs.map Char.toLower ≠ "true".data →
      cs.map Char.toLower ≠ "false".data →
      isIntToken cs = false → isFloatToken cs = false →
      parseValueCore b cs = .str ⟨cs⟩) := by
  refine ⟨?_, ?_, ?_, ?_, ?_, ?_, ?_, ?_, ?_, ?_⟩
  · intro b s
    have : ("\"" ++ s ++ "\"").data = '"' :: (s.data ++ ['"']) := by
      simp [String.data_append]
    rw [parse_value, this, parseValueCore_quoted]
  · intro b
    cases b <;> exact ⟨rfl, rfl, rfl⟩
  · intro b
    cases b <;> exact ⟨rfl, rfl⟩
  · exact ⟨rfl, rfl, rfl, rfl⟩
  · exact ⟨rfl, rfl, rfl⟩
  · exact parse_value_int_law
  · exact parse_value_float_law
  · exact parse_value_bool_law
  · exact parse_value_json_fallthrough_law
  · exact parse_value_plain_law

/-- C4 witness: the general laws applied at concrete tokens — an integer
token, a decimal token, a case-insensitive boolean, an undecodable
`[]`-delimited token falling through to a plain string, and a catch-all
plain token. -/
theorem c4_witness :
    parseValueCore false "-42".data = .int (tokenToInt "-42".data) ∧
    parseValueCore true "3.14".data = .float (tokenToRat "3.14".data) ∧
    parseValueCore false "TRUE".data = .bool true ∧
    parseValueCore true "[1,]".data = .str "[1,]" ∧
    parseValueCore false "hello".data = .str "hello" :=
  ⟨c4_literal_coercion.2.2.2.2.2.1 false "-42".data rfl rfl,
    c4_literal_coercion.2.2.2.2.2.2.1 true "3.14".data rfl rfl rfl,
    (c4_literal_coercion.2.2.2.2.2.2.2.1 false "TRUE".data rfl).1 rfl,
    c4_literal_coercion.2.2.2.2.2.2.2.2.1 "[1,]".data rfl
      (Or.inr ⟨rfl, rfl⟩) rfl true,
    c4_literal_coercion.2.2.2.2.2.2.2.2.2 false "hello".data rfl
      (by decide) (by decide) (by decide) (by decide) rfl rfl⟩

theorem pvStrip_eq_self (l : List Char) (h1 : l.dropWhile wsChar = l)
    (h2 : l.reverse.dropWhile wsChar = l.reverse) : pvStrip l = l := by
  unfold pvStrip
  rw [h1, h2, List.reverse_reverse]

/-- C3 amended: executing `Set{name, value}` with `name == "prompt"` always
fails with the reserved-name error; with `name == "messages"` it succeeds if
and only if the value is list-shaped — and it does so every time, each
success overwriting the previous binding (the once-per-run restriction of
the original claim does not exist in the code, see the counterexample); for
every other name the value is stored under the name, overwriting any prior
binding. -/
theorem c3_set_reserved_semantics (s : RState) (name : String) (v : Value) :
    (name = "prompt" → handle_set s name v = (s, some (reservedMsg "prompt"))) ∧
    (name = "messages" →
      (v.isList = true →
        handle_set s name v =
          ({ s with vars := dictInsert s.vars "messages" v }, Option.none)) ∧
      (v.isList = false →
        handle_set s name v = (s, some (reservedMsg "messages")))) ∧
    (name ∉ RESERVED_VARIABLES →
      handle_set s name v =
        ({ s with vars := dictInsert s.vars name v }, Option.none)) := by
  refine ⟨?_, ?_, ?_⟩
  · rintro rfl
    simp [handle_set, RESERVED_VARIABLES]
  · rintro rfl
    constructor
    · intro hv
      simp [handle_set, RESERVED_VARIABLES, hv]
    · intro hv
      simp [handle_set, RESERVED_VARIABLES, hv]
  · intro hname
    simp [handle_set, hname]

/-- C3 counterexample: a second list seeding of `messages` in the same run
succeeds as well (and overwrites the first), refuting "such a list seeding
succeeds exactly once per run": after two consecutive `set messages = [...]`
statements the run has not failed and `messages` holds the second list. -/
theorem c3_counterexample :
    runStmts cfgFlat initState
      [.set "messages" (.list [.int 1]), .set "messages" (.list [.int 2])] =
    ({ initState with vars := [("messages", .list [.int 2])] },
      Option.none) := by
  rfl

/-- C3 witness: the amended theorem at concrete inputs — `set prompt` fails,
a list seeds `messages`, a non-list is rejected, and an unreserved name is
stored. -/
theorem c3_witness :
    handle_set initState "prompt" (.str "x") =
      (initState, some (reservedMsg "prompt")) ∧
    handle_set initState "messages" (.list []) =
      ({ initState with vars := [("messages", .list [])] }, Option.none) ∧
    handle_set initState "messages" (.str "x") =
      (initState, some (reservedMsg "messages")) ∧
    handle_set initState "topic" (.str "x") =
      ({ initState with vars := [("topic", .str "x")] }, Option.none) :=
  ⟨(c3_set_reserved_semantics initState "prompt" (.str "x")).1 rfl,
    (c3_set_reserved_semantics initState "messages" (.list [])).2.1 rfl
      |>.1 rfl,
    (c3_set_reserved_semantics initState "messages" (.str "x")).2.1 rfl
      |>.2 rfl,
    (c3_set_reserved_semantics initState "topic" (.str "x")).2.2 (by decide)⟩

/-- C6 amended: for every `Template{name, value}` statement whose name is
not reserved (`prompt` and `messages` are rejected up front, see the
counterexample), if substitution succeeds — in particular whenever every
`{identifier}` placeholder names a bound variable — the fully substituted
string is stored under the name; if a placeholder names an unbound variable
the statement fails with the unknown-variable error naming that identifier
and the state is unchanged, so the name remains unbound. -/
theorem c6_template_total (s : RState) (name value : String)
    (hname : name ∉ RESERVED_VARIABLES) :
    (∀ r, formatString s.vars value = .ok r →
      handle_template s name value =
        ({ s with vars := dictInsert s.vars name (.str r) }, Option.none)) ∧
    (∀ id, formatString s.vars value = .error (.unknown id) →
      handle_template s name value = (s, some ("Unknown variable: " ++ id))) := by
  constructor
  · intro r hr
    simp [handle_template, hname, hr]
  · intro id hid
    simp [handle_template, hname, hid, fmtErrMsg]

/-- C6 counterexample: `Template{name := "prompt", value := "hi"}` has no
placeholder at all (so every placeholder trivially names a bound variable),
yet the statement fails with the reserved-name error and stores nothing,
refuting "the fully substituted string is stored under name". -/
theorem c6_counterexample :
    handle_template initState "prompt" "hi" =
      (initState, some (reservedMsg "prompt")) := by
  rfl

/-- C6 witness: the amended theorem at concrete inputs — a bound placeholder
substitutes and stores, an unbound one fails naming the identifier. -/
theorem c6_witness :
    handle_template { initState with vars := [("topic", .str "agents")] }
        "g" "Hello \x7btopic\x7d!" =
      ({ initState with
          vars := [("topic", .str "agents"), ("g", .str "Hello agents!")] },
        Option.none) ∧
    handle_template initState "g" "Hello \x7btopic\x7d!" =
      (initState, some "Unknown variable: topic") :=
  ⟨(c6_template_total { initState with vars := [("topic", .str "agents")] }
      "g" "Hello \x7btopic\x7d!" (by decide)).1 "Hello agents!" (by rfl),
    (c6_template_total initState "g" "Hello \x7btopic\x7d!" (by decide)).2
      "topic" (by rfl)⟩

/-- C7: parsing a `generate` line applies the defaults `temperature = 0.7`,
`max_tokens = 128`, `format`/`schema` absent before any supplied key
overrides them, and any supplied key outside
`{temperature, max_tokens, format, schema}` is a ParseError naming that
key (shown both at the token level for every such token and on a concrete
script line with the line number prefixed). -/
theorem c7_generate_defaults :
    parse_generate_args "" = .ok genDefaults ∧
    (genDefaults.temperature = .float (mkRat 7 10) ∧
      genDefaults.max_tokens = .int 128 ∧
      genDefaults.format = .none ∧ genDefaults.schema = .none) ∧
    (∀ (tok k : String) (v : List Char),
      matchAssign tok.data = some (k, v) →
      k ∉ ["temperature", "max_tokens", "format", "schema"] →
      genArgsLoop [tok] genDefaults =
        .error ("Unsupported generate argument: " ++ k)) ∧
    parse_generate_args "temperature=0.3 max_tokens=10" =
      .ok ⟨.float (mkRat 3 10), .int 10, .none, .none⟩ ∧
    parseLines ["generate r from p foo=bar"] =
      .error "Line 1: Unsupported generate argument: foo" := by
  refine ⟨rfl, ⟨rfl, rfl, rfl, rfl⟩, ?_, rfl, rfl⟩
  intro tok k v hm hk
  simp only [List.mem_cons, List.mem_singleton, not_or] at hk
  obtain ⟨h1, h2, h3, h4, _⟩ := hk
  simp [genArgsLoop, hm, applyGenArg, h1, h2, h3, h4]

/-- C7 witness: the unsupported-key clause applied at the concrete token
`foo=bar`. -/
theorem c7_witness :
    genArgsLoop ["foo=bar"] genDefaults =
      .error "Unsupported generate argument: foo" :=
  c7_generate_defaults.2.2.1 "foo=bar" "foo" "bar".data rfl (by decide)

/-- C8: at the script level, `print "x"` with a double-quoted string behaves
like `print x` with a bare variable name — the parser strips the quotes, so
the runtime receives the plain string `x`, looks it up, and for every bound
variable `x` appends the string form of `x`'s current value to the output
log rather than the literal text `x`. -/
theorem c8_print_quoted_variable (x : String) (v : Value) (s : RState)
    (h : lookupDict s.vars x = some v) :
    parseLines ["print \"" ++ x ++ "\""] = .ok [.print (.str x)] ∧
    handle_print s (.str x) =
      ({ s with output := s.output ++ [pyStr v] }, Option.none) := by
  constructor
  · have hdata : ("print \"" ++ x ++ "\"").data =
        'p' :: 'r' :: 'i' :: 'n' :: 't' :: ' ' :: '"' :: (x.data ++ ['"']) := by
      simp [String.data_append]
    have hstrip : pvStrip ("print \"" ++ x ++ "\"").data =
        'p' :: 'r' :: 'i' :: 'n' :: 't' :: ' ' :: '"' :: (x.data ++ ['"']) := by
      rw [hdata]
      apply pvStrip_eq_self
      · rw [List.dropWhile_cons]
        simp [wsChar]
      · have hrev :
            ('p' :: 'r' :: 'i' :: 'n' :: 't' :: ' ' :: '"' ::
              (x.data ++ ['"'])).reverse =
            '"' :: (('p' :: 'r' :: 'i' :: 'n' :: 't' :: ' ' :: '"' ::
              x.data).reverse) := by
          rw [show ('p' :: 'r' :: 'i' :: 'n' :: 't' :: ' ' :: '"' ::
              (x.data ++ ['"'])) =
              (('p' :: 'r' :: 'i' :: 'n' :: 't' :: ' ' :: '"' :: x.data) ++
                ['"']) by simp]
          simp
        rw [hrev, List.dropWhile_cons]
        simp [wsChar]
    simp only [parseLines, List.length, parseLinesF, hstrip]
    simp only [List.isEmpty, List.head?, matchPromptStart, dropToken, reqWS,
      takeIdent, wsChar, matchModel, matchTemplate, matchSet, matchGenerate,
      matchCall, matchMessage, matchPrint, parseLine]
    simp [List.dropWhile_cons, wsChar, parseValueCore_quoted]
  · simp [handle_print, h]

/-- C8 witness: the theorem at the bound variable `g` holding `"hi"`. -/
theorem c8_witness :
    parseLines ["print \"g\""] = .ok [.print (.str "g")] ∧
    handle_print { initState with vars := [("g", .str "hi")] } (.str "g") =
      ({ initState with vars := [("g", .str "hi")], output := ["hi"] },
        Option.none) :=
  c8_print_quoted_variable "g" (.str "hi")
    { initState with vars := [("g", .str "hi")] } rfl

theorem lookupDict_dictInsert_self (kvs : List (String × Value))
    (k : String) (v : Value) : lookupDict (dictInsert kvs k v) k = some v := by
  induction kvs with
  | nil => simp [dictInsert, lookupDict]
  | cons kv rest ih =>
      obtain ⟨k', v'⟩ := kv
      by_cases h : k' = k
      · simp [dictInsert, lookupDict, h]
      · simp [dictInsert, lookupDict, h, ih]

theorem lookupDict_dictInsert_ne (kvs : List (String × Value))
    (k k' : String) (v : Value) (h : k ≠ k') :
    lookupDict (dictInsert kvs k v) k' = lookupDict kvs k' := by
  induction kvs with
  | nil => simp [dictInsert, lookupDict, h]
  | cons kv rest ih =>
      obtain ⟨k₀, v₀⟩ := kv
      by_cases h₀ : k₀ = k
      · subst h₀
        simp [dictInsert, lookupDict, h]
      · simp only [dictInsert, if_neg h₀, lookupDict]
        by_cases h₁ : k₀ = k'
        · simp [h₁]
        · simp [h₁, ih]

/-- C9: whenever a `Generate` statement fails before generation — unknown
prompt variable, non-numeric `temperature` or `max_tokens`, negative
temperature, or non-positive `max_tokens` — the handler returns an error and
the environment (variables, output log, and the provider-call trace, so
neither provider operation was invoked) is exactly the input state. -/
theorem c9_generate_prechecks (cfg : Config) (s : RState)
    (target pvar : String) (temp mtok fmtv schv : Value)
    (h : lookupDict s.vars pvar = Option.none ∨
      (∃ e, pyFloat temp = .error e) ∨
      (∃ e, pyInt mtok = .error e) ∨
      (∃ t, pyFloat temp = .ok t ∧ t < 0) ∨
      (∃ k, pyInt mtok = .ok k ∧ k ≤ 0)) :
    (handle_generate cfg s target pvar temp mtok fmtv schv).1 = s ∧
    (handle_generate cfg s target pvar temp mtok fmtv schv).2.isSome = true := by
  unfold handle_generate
  cases hlv : lookupDict s.vars pvar with
  | none => simp [hlv]
  | some pv =>
    cases hpt : genPromptText pv with
    | error e => simp [hlv, hpt]
    | ok p0 =>
      cases hft : pyFloat temp with
      | error e => simp [hlv, hpt, hft]
      | ok t' =>
        cases hit : pyInt mtok with
        | error e => simp [hlv, hpt, hft, hit]
        | ok k' =>
          by_cases htneg : t' < 0
          · simp [hlv, hpt, hft, hit, htneg]
          · by_cases hkle : k' ≤ 0
            · simp [hlv, hpt, hft, hit, htneg, hkle]
            · exfalso
              rcases h with h | ⟨e, he⟩ | ⟨e, he⟩ | ⟨t, ht, ht0⟩ | ⟨k, hk, hk0⟩
              · rw [hlv] at h
                exact Option.noConfusion h
              · rw [hft] at he
                exact Except.noConfusion he
              · rw [hit] at he
                exact Except.noConfusion he
              · rw [hft] at ht
                injection ht with ht
                exact htneg (ht ▸ ht0)
              · rw [hit] at hk
                injection hk with hk
                exact hkle (hk ▸ hk0)

/-- C9 witness: the theorem at an unbound prompt variable. -/
theorem c9_witness :
    (handle_generate cfgFlat initState "r" "p" (.int 1) (.int 5)
      .none .none).1 = initState ∧
    (handle_generate cfgFlat initState "r" "p" (.int 1) (.int 5)
      .none .none).2.isSome = true :=
  c9_generate_prechecks cfgFlat initState "r" "p" (.int 1) (.int 5)
    .none .none (Or.inl rfl)

/-- C5 amended: once the pre-checks of a `Generate` statement pass, if
`format == "json"` or the supplied schema is truthy (a falsy schema value —
`0`, `false`, the empty string — behaves as if absent, see the
counterexample), the provider's returned text is parsed as JSON: on success
the decoded structure (not the raw string) is stored under the target, and
on decode failure the statement fails with "Generated output is not valid
JSON" and the variables — in particular the target — are untouched; when
neither holds, the raw returned string is stored under the target. -/
theorem c5_generate_json_mode (cfg : Config) (s : RState)
    (target pvar : String) (temp mtok fmtv schv : Value)
    (pv : Value) (p0 : String) (t : ℚ) (k : Int)
    (hlv : lookupDict s.vars pvar = some pv)
    (hpt : genPromptText pv = .ok p0)
    (hft : pyFloat temp = .ok t) (ht : ¬t < 0)
    (hit : pyInt mtok = .ok k) (hk : ¬k ≤ 0) :
    ((valueEqStr fmtv "json" = true ∨ pyTruthy schv = true) →
      (∀ v, jsonLoads (genCall cfg s.model pv (augment p0 fmtv schv) t k).1 =
          some v →
        handle_generate cfg s target pvar temp mtok fmtv schv =
          ({ s with
              vars := dictInsert s.vars target v,
              calls := s.calls ++
                [(genCall cfg s.model pv (augment p0 fmtv schv) t k).2] },
            Option.none)) ∧
      (jsonLoads (genCall cfg s.model pv (augment p0 fmtv schv) t k).1 =
          Option.none →
        handle_generate cfg s target pvar temp mtok fmtv schv =
          ({ s with
              calls := s.calls ++
                [(genCall cfg s.model pv (augment p0 fmtv schv) t k).2] },
            some "Generated output is not valid JSON") ∧
        (handle_generate cfg s target pvar temp mtok fmtv schv).1.vars =
          s.vars)) ∧
    (¬(valueEqStr fmtv "json" = true ∨ pyTruthy schv = true) →
      handle_generate cfg s target pvar temp mtok fmtv schv =
        ({ s with
            vars := dictInsert s.vars target
              (.str (genCall cfg s.model pv (augment p0 fmtv schv) t k).1),
            calls := s.calls ++
              [(genCall cfg s.model pv (augment p0 fmtv schv) t k).2] },
          Option.none)) := by
  constructor
  · intro hmode
    constructor
    · intro v hjson
      simp [handle_generate, hlv, hpt, hft, hit, ht, hk, hmode, hjson]
    · intro hjson
      simp [handle_generate, hlv, hpt, hft, hit, ht, hk, hmode, hjson]
  · intro hmode
    simp [handle_generate, hlv, hpt, hft, hit, ht, hk, hmode]

/-- C5 counterexample: `schema = 0` is a supplied schema, the provider
returns `not json`, yet the statement does not fail — the raw string is
stored under the target — because the code tests the schema for Python
truthiness, not for presence. -/
theorem c5_counterexample :
    handle_generate (cfgConst "not json")
        { initState with vars := [("p", .str "x")] }
        "r" "p" (.int 1) (.int 5) .none (.int 0) =
      ({ initState with
          vars := [("p", .str "x"), ("r", .str "not json")],
          calls := [.text "default-model" "x" 1 5] },
        Option.none) := by
  rfl

/-- C5 witness: the amended theorem at concrete inputs — valid JSON output
is stored decoded, invalid JSON output fails without touching the
variables, and without json mode the raw text is stored. -/
theorem c5_witness :
    handle_generate (cfgConst "\x7b\"name\": \"Ada\"\x7d")
        { initState with vars := [("p", .str "x")] }
        "r" "p" (.int 1) (.int 5) (.str "json") .none =
      ({ initState with
          vars := [("p", .str "x"),
            ("r", .obj [("name", .str "Ada")])],
          calls := [.text "default-model" "x\n\nReturn valid JSON." 1 5] },
        Option.none) ∧
    handle_generate (cfgConst "not json")
        { initState with vars := [("p", .str "x")] }
        "r" "p" (.int 1) (.int 5) (.str "json") .none =
      ({ initState with
          vars := [("p", .str "x")],
          calls := [.text "default-model" "x\n\nReturn valid JSON." 1 5] },
        some "Generated output is not valid JSON") ∧
    handle_generate (cfgConst "plain")
        { initState with vars := [("p", .str "x")] }
        "r" "p" (.int 1) (.int 5) .none .none =
      ({ initState with
          vars := [("p", .str "x"), ("r", .str "plain")],
          calls := [.text "default-model" "x" 1 5] },
        Option.none) :=
  ⟨((c5_generate_json_mode (cfgConst "\x7b\"name\": \"Ada\"\x7d")
        { initState with vars := [("p", .str "x")] }
        "r" "p" (.int 1) (.int 5) (.str "json") .none
        (.str "x") "x" 1 5 rfl rfl rfl (by decide) rfl (by decide)).1
      (Or.inl rfl)).1 (.obj [("name", .str "Ada")]) rfl,
    (((c5_generate_json_mode (cfgConst "not json")
        { initState with vars := [("p", .str "x")] }
        "r" "p" (.int 1) (.int 5) (.str "json") .none
        (.str "x") "x" 1 5 rfl rfl rfl (by decide) rfl (by decide)).1
      (Or.inl rfl)).2 rfl).1,
    (c5_generate_json_mode (cfgConst "plain")
        { initState with vars := [("p", .str "x")] }
        "r" "p" (.int 1) (.int 5) .none .none
        (.str "x") "x" 1 5 rfl rfl rfl (by decide) rfl (by decide)).2
      (by decide)⟩

/-- C2 amended: for a `Generate` statement whose prompt variable resolves to
a list whose flattening succeeds (all elements dict-shaped) and whose
pre-checks pass: the chat operation is called with the unmodified message
list exactly when the list is non-empty and the provider exposes the
operation; when the list is empty or the operation is absent, the flat-text
operation is called with the prompt text obtained by flattening the list to
`"<role>: <content>"` lines joined by newline (then schema/format
augmented).  The original claim omitted the non-emptiness condition, see the
counterexample. -/
theorem c2_generate_dispatch (cfg : Config) (s : RState)
    (target pvar : String) (temp mtok fmtv schv : Value)
    (xs : List Value) (f0 : String) (t : ℚ) (k : Int)
    (hlv : lookupDict s.vars pvar = some (.list xs))
    (hfm : formatMessages xs = .ok f0)
    (hft : pyFloat temp = .ok t) (ht : ¬t < 0)
    (hit : pyInt mtok = .ok k) (hk : ¬k ≤ 0) :
    (∀ g, cfg.generate_messages = some g → xs ≠ [] →
      genCall cfg s.model (.list xs) (augment f0 fmtv schv) t k =
        (g s.model xs t k, .msgs s.model xs t k) ∧
      (handle_generate cfg s target pvar temp mtok fmtv schv).1.calls =
        s.calls ++ [.msgs s.model xs t k]) ∧
    ((xs = [] ∨ cfg.generate_messages = Option.none) →
      genCall cfg s.model (.list xs) (augment f0 fmtv schv) t k =
        (cfg.generate s.model (augment f0 fmtv schv) t k,
          .text s.model (augment f0 fmtv schv) t k) ∧
      (handle_generate cfg s target pvar temp mtok fmtv schv).1.calls =
        s.calls ++ [.text s.model (augment f0 fmtv schv) t k]) := by
  constructor
  · intro g hg hne
    cases xs with
    | nil => exact absurd rfl hne
    | cons m ms =>
      have hgc : genCall cfg s.model (.list (m :: ms))
          (augment f0 fmtv schv) t k =
          (g s.model (m :: ms) t k, .msgs s.model (m :: ms) t k) := by
        simp [genCall, hg]
      refine ⟨hgc, ?_⟩
      simp only [handle_generate, hlv, genPromptText, hfm, hft, hit,
        if_neg ht, if_neg hk]
      rw [hgc]
      split <;> (try split) <;> rfl
  · intro hflat
    have hgc : genCall cfg s.model (.list xs)
        (augment f0 fmtv schv) t k =
        (cfg.generate s.model (augment f0 fmtv schv) t k,
          .text s.model (augment f0 fmtv schv) t k) := by
      rcases hflat with rfl | hnone
      · rfl
      · cases xs with
        | nil => rfl
        | cons m ms => simp [genCall, hnone]
    refine ⟨hgc, ?_⟩
    simp only [handle_generate, hlv, genPromptText, hfm, hft, hit,
      if_neg ht, if_neg hk]
    rw [hgc]
    split <;> (try split) <;> rfl

/-- C2 counterexample: the prompt variable resolves to an (empty) list and
the provider exposes `generate_messages`, yet the flat-text operation is the
one invoked (`if messages and ...` is false for an empty list): the trace
records a text call on the empty flattened prompt and the flat result is
stored. -/
theorem c2_counterexample :
    handle_generate cfgFlat { initState with vars := [("m", .list [])] }
        "r" "m" (.int 1) (.int 5) .none .none =
      ({ initState with
          vars := [("m", .list []), ("r", .str "FLAT")],
          calls := [.text "default-model" "" 1 5] },
        Option.none) ∧
    cfgFlat.generate_messages.isSome = true := by
  exact ⟨rfl, rfl⟩

/-- C2 witness: the amended theorem at concrete inputs — a one-message list
with a chat-capable provider goes through `generate_messages` with the
unmodified list; the same list with a flat-only provider is flattened to
`user: hi`. -/
theorem c2_witness :
    (genCall cfgFlat "default-model" (.list [mkMsg "user" "hi"])
        (augment "user: hi" .none .none) 1 5 =
      ((fun _ _ _ _ => "CHAT") "default-model" [mkMsg "user" "hi"] (1 : ℚ)
          (5 : Int),
        .msgs "default-model" [mkMsg "user" "hi"] 1 5) ∧
      (handle_generate cfgFlat
        { initState with vars := [("m", .list [mkMsg "user" "hi"])] }
        "r" "m" (.int 1) (.int 5) .none .none).1.calls =
        [] ++ [.msgs "default-model" [mkMsg "user" "hi"] 1 5]) ∧
    (genCall (cfgConst "out") "default-model" (.list [mkMsg "user" "hi"])
        (augment "user: hi" .none .none) 1 5 =
      ((cfgConst "out").generate "default-model"
          (augment "user: hi" .none .none) 1 5,
        .text "default-model" (augment "user: hi" .none .none) 1 5) ∧
      (handle_generate (cfgConst "out")
        { initState with vars := [("m", .list [mkMsg "user" "hi"])] }
        "r" "m" (.int 1) (.int 5) .none .none).1.calls =
        [] ++ [.text "default-model" (augment "user: hi" .none .none) 1 5]) :=
  ⟨(c2_generate_dispatch cfgFlat
      { initState with vars := [("m", .list [mkMsg "user" "hi"])] }
      "r" "m" (.int 1) (.int 5) .none .none
      [mkMsg "user" "hi"] "user: hi" 1 5 rfl rfl rfl (by decide) rfl
      (by decide)).1 (fun _ _ _ _ => "CHAT") rfl (by simp),
    (c2_generate_dispatch (cfgConst "out")
      { initState with vars := [("m", .list [mkMsg "user" "hi"])] }
      "r" "m" (.int 1) (.int 5) .none .none
      [mkMsg "user" "hi"] "user: hi" 1 5 rfl rfl rfl (by decide) rfl
      (by decide)).2 (Or.inr rfl)⟩

theorem handle_generate_vars_cases (cfg : Config) (s : RState)
    (target pvar : String) (temp mtok fmtv schv : Value) :
    (handle_generate cfg s target pvar temp mtok fmtv schv).1.vars = s.vars ∨
    ∃ v, (handle_generate cfg s target pvar temp mtok fmtv schv).1.vars =
      dictInsert s.vars target v := by
  unfold handle_generate
  dsimp only
  repeat' split
  all_goals first
    | exact Or.inl rfl
    | exact Or.inr ⟨_, rfl⟩

/-- One execution step preserves the list-shape invariant of `messages`
when the statement's unchecked write paths avoid the reserved names. -/
theorem execStmt_msgs_inv (cfg : Config) (s : RState) (st : Stmt)
    (hsafe : safeTargets st = true) (hinv : msgsListInv s) :
    msgsListInv (execStmt cfg s st).1 := by
  cases st with
  | model name => exact hinv
  | set name v =>
      simp only [execStmt]
      unfold handle_set
      by_cases h1 : name ∈ RESERVED_VARIABLES
      · rw [if_pos h1]
        by_cases h2 : name = "messages" ∧ v.isList = true
        · rw [if_pos h2]
          obtain ⟨rfl, hlist⟩ := h2
          intro w hw
          rw [lookupDict_dictInsert_self] at hw
          cases hw
          exact hlist
        · rw [if_neg h2]
          exact hinv
      · rw [if_neg h1]
        intro w hw
        have hne : name ≠ "messages" := by
          intro hh
          exact h1 (by simp [RESERVED_VARIABLES, hh])
        rw [lookupDict_dictInsert_ne _ _ _ _ hne] at hw
        exact hinv w hw
  | template name value =>
      simp only [execStmt]
      unfold handle_template
      by_cases h1 : name ∈ RESERVED_VARIABLES
      · rw [if_pos h1]
        exact hinv
      · rw [if_neg h1]
        cases hf : formatString s.vars value with
        | ok r =>
            intro w hw
            have hne : name ≠ "messages" := by
              intro hh
              exact h1 (by simp [RESERVED_VARIABLES, hh])
            simp only [hf] at hw
            rw [lookupDict_dictInsert_ne _ _ _ _ hne] at hw
            exact hinv w hw
        | error e =>
            simp only [hf]
            exact hinv
  | prompt value =>
      simp only [execStmt]
      unfold handle_prompt
      cases hf : formatString s.vars value with
      | ok r =>
          intro w hw
          simp only [hf] at hw
          rw [lookupDict_dictInsert_ne _ _ _ _ (by decide)] at hw
          exact hinv w hw
      | error e =>
          simp only [hf]
          exact hinv
  | message role value =>
      simp only [execStmt]
      unfold handle_message
      cases hf : formatString s.vars value with
      | error e =>
          simp only [hf]
          exact hinv
      | ok content =>
          simp only [hf]
          cases hm : lookupDict s.vars "messages" with
          | none =>
              intro w hw
              rw [lookupDict_dictInsert_self] at hw
              cases hw
              rfl
          | some mv =>
              cases mv with
              | list xs =>
                  intro w hw
                  rw [lookupDict_dictInsert_self] at hw
                  cases hw
                  rfl
              | str a => exact hinv
              | int a => exact hinv
              | float a => exact hinv
              | bool a => exact hinv
              | obj a => exact hinv
              | none => exact hinv
  | generate tgt p tv kv fv sv =>
      have hne : tgt ≠ "messages" := by
        simp only [safeTargets, Bool.and_eq_true, decide_eq_true_eq] at hsafe
        exact hsafe.2
      intro w hw
      rcases handle_generate_vars_cases cfg s tgt p tv kv fv sv with hv | ⟨v, hv⟩
      · rw [show (execStmt cfg s (.generate tgt p tv kv fv sv)) =
            handle_generate cfg s tgt p tv kv fv sv from rfl, hv] at hw
        exact hinv w hw
      · rw [show (execStmt cfg s (.generate tgt p tv kv fv sv)) =
            handle_generate cfg s tgt p tv kv fv sv from rfl, hv,
          lookupDict_dictInsert_ne _ _ _ _ hne] at hw
        exact hinv w hw
  | call tool args tgt =>
      have hne : tgt ≠ "messages" := by
        simp only [safeTargets, Bool.and_eq_true, decide_eq_true_eq] at hsafe
        exact hsafe.2
      simp only [execStmt]
      unfold handle_call
      rcases hl : cfg.tools.lookup tool with _ | f
      · simp only [hl]
        exact hinv
      · simp only [hl]
        rcases hfa : f args with e | v
        · simp only [hfa]
          exact hinv
        · simp only [hfa]
          intro w hw
          rw [lookupDict_dictInsert_ne _ _ _ _ hne] at hw
          exact hinv w hw
  | print v => exact hinv

/-- C1 amended: for every run whose `generate` and `call` statements never
target the reserved names, the variable `messages`, if bound, always holds a
list after execution — `set`/`template` reject reserved names (`set`'s list
seeding of `messages` excepted, which may recur), and `prompt`/`message` are
the dedicated writers.  Without that restriction the original claim is
false: `generate` and `call` targets are not reserved-checked, so they can
store arbitrary non-list results under `prompt` or `messages` (see the
counterexample), and a `set` seeding accepts any list, not only a
MessageList. -/
theorem c1_messages_invariant_safe_targets (cfg : Config)
    (stmts : List Stmt) (s : RState)
    (hsafe : stmts.all safeTargets = true) (hinv : msgsListInv s) :
    msgsListInv (runStmts cfg s stmts).1 := by
  induction stmts generalizing s with
  | nil => exact hinv
  | cons st rest ih =>
      rw [List.all_cons, Bool.and_eq_true] at hsafe
      unfold runStmts
      rcases hex : execStmt cfg s st with ⟨s', e⟩
      have hinv' : msgsListInv s' := by
        have h := execStmt_msgs_inv cfg s st hsafe.1 hinv
        rw [hex] at h
        exact h
      cases e with
      | none => exact ih s' hsafe.2 hinv'
      | some e => exact hinv'

/-- C1 counterexample: a `generate` statement may target `messages` (the
target is never reserved-checked), and the run then succeeds with `messages`
bound to the provider's plain string — not a MessageList, and written by
`generate`, refuting both halves of the claim. -/
theorem c1_counterexample :
    runStmts cfgFlat initState
      [.set "p" (.str "hi"),
        .generate "messages" "p" (.int 1) (.int 5) .none .none] =
      ({ initState with
          vars := [("p", .str "hi"), ("messages", .str "FLAT")],
          calls := [.text "default-model" "hi" 1 5] },
        Option.none) := by
  rfl

/-- C1 witness: the amended invariant on a concrete run mixing a `message`
statement, an ordinary `set`, and a `generate` from `messages` into an
unreserved target. -/
theorem c1_witness :
    msgsListInv (runStmts cfgFlat initState
      [.message "user" "hi", .set "x" (.int 1),
        .generate "r" "messages" (.int 1) (.int 5) .none .none]).1 :=
  c1_messages_invariant_safe_targets cfgFlat
    [.message "user" "hi", .set "x" (.int 1),
      .generate "r" "messages" (.int 1) (.int 5) .none .none]
    initState rfl (fun _ h => Option.noConfusion h)

theorem execStmt_output_extends (cfg : Config) (s : RState) (st : Stmt) :
    ∃ t, (execStmt cfg s st).1.output = s.output ++ t := by
  cases st with
  | model name => exact ⟨[], by simp [execStmt, handle_model]⟩
  | set name v =>
      refine ⟨[], ?_⟩
      simp only [execStmt]
      unfold handle_set
      repeat' split
      all_goals simp
  | template name value =>
      refine ⟨[], ?_⟩
      simp only [execStmt]
      unfold handle_template
      repeat' split
      all_goals simp
  | prompt value =>
      refine ⟨[], ?_⟩
      simp only [execStmt]
      unfold handle_prompt
      repeat' split
      all_goals simp
  | message role value =>
      refine ⟨[], ?_⟩
      simp only [execStmt]
      unfold handle_message
      repeat' split
      all_goals simp
  | generate tgt p tv kv fv sv =>
      refine ⟨[], ?_⟩
      simp only [execStmt]
      unfold handle_generate
      dsimp only
      repeat' split
      all_goals simp
  | call tool args tgt =>
      refine ⟨[], ?_⟩
      simp only [execStmt]
      unfold handle_call
      repeat' split
      all_goals simp
  | print v =>
      exact ⟨[pyStr (match v with
        | .str x => match lookupDict s.vars x with
          | some w => w
          | Option.none => v
        | _ => v)], rfl⟩

theorem runStmts_output_extends (cfg : Config) (stmts : List Stmt)
    (s : RState) : ∃ t, (runStmts cfg s stmts).1.output = s.output ++ t := by
  induction stmts generalizing s with
  | nil => exact ⟨[], by simp [runStmts]⟩
  | cons st rest ih =>
      obtain ⟨t1, h1⟩ := execStmt_output_extends cfg s st
      unfold runStmts
      rcases hex : execStmt cfg s st with ⟨s', e⟩
      rw [hex] at h1
      cases e with
      | none =>
          obtain ⟨t2, h2⟩ := ih s'
          exact ⟨t1 ++ t2, by rw [h2, h1, List.append_assoc]⟩
      | some e => exact ⟨t1, h1⟩

/-- C10: `run` returns the environment's own accumulating output list and
never clears it — when a second `run` on the same environment returns, the
returned list is exactly the state's output log and extends (begins with)
everything the environment had accumulated after the first `run`, which in
turn extends what was there before it. -/
theorem c10_output_never_cleared (cfg : Config) (s : RState)
    (l1 l2 : List Stmt) (s1 : RState) (e1 : Option String)
    (h1 : runStmts cfg s l1 = (s1, e1))
    (s2 : RState) (out : List String)
    (h2 : run cfg s1 l2 = (s2, .ok out)) :
    out = s2.output ∧ (∃ t, out = s1.output ++ t) ∧
    (∃ t, s1.output = s.output ++ t) := by
  unfold run at h2
  rcases hrs : runStmts cfg s1 l2 with ⟨s2', e2⟩
  rw [hrs] at h2
  cases e2 with
  | none =>
      cases h2
      refine ⟨rfl, ?_, ?_⟩
      · obtain ⟨t, ht⟩ := runStmts_output_extends cfg l2 s1
        rw [hrs] at ht
        exact ⟨t, ht⟩
      · obtain ⟨t, ht⟩ := runStmts_output_extends cfg l1 s
        rw [h1] at ht
        exact ⟨t, ht⟩
  | some e => cases h2

/-- C10 witness: two consecutive runs of single `print` statements on one
environment — the second returned list is the state's log `["a", "b"]`,
extending the first run's `["a"]`. -/
theorem c10_witness :
    (["a", "b"] : List String) =
      ({ initState with output := ["a", "b"] } : RState).output ∧
    (∃ t, (["a", "b"] : List String) = ["a"] ++ t) ∧
    (∃ t, (["a"] : List String) = [] ++ t) :=
  c10_output_never_cleared cfgFlat initState
    [.print (.str "a")] [.print (.str "b")]
    { initState with output := ["a"] } Option.none rfl
    { initState with output := ["a", "b"] } ["a", "b"] rfl

end GenAIL
